import Mathlib

/-!
# LibButtonEvents: the polled button state machine of `src/Buttons.h`

A shallow embedding of `Buttons.h`.  The button record `btn_t` is a Lean structure, the
three collaborators (pin reader, millisecond clock, event sink) are made explicit:

* the pin reader is the value `pin` it returns in the step at hand,
* the clock is an oracle `clk : Nat → Nat`, `clk k` being what the `k`-th call of
  `tick_ms_cb()` inside the step returns (taken modulo `2^32`, the range of `uint32_t`),
* the event sink is a log of the calls made to `btn_evt_cb`, each with a snapshot of the
  button at the time of the call.

The callbacks are assumed not to write to the button they are handed.

A pointer to a button is an `Option Btn`, `none` being the null pointer.  A setter ends
by returning a value, or by a store through a null pointer (`SetterEnd`), which C leaves
undefined.  Arguments of type `uint32_t` are naturals taken modulo `2^32`.
-/

namespace Buttons

/-! ## Data model -/

/-- Button events, `enum btn_evt_t` (Buttons.h 10-15). -/
inductive btn_evt_t where
  | BTN_EVT_MULTI_CLICK
  | BTN_EVT_PRESS
  | BTN_EVT_LONG_PRESS
  | BTN_EVT_ALL
  deriving DecidableEq

/-- The integer value of an enumerator of `btn_evt_t`. -/
def btn_evt_t.toNat : btn_evt_t → Nat
  | .BTN_EVT_MULTI_CLICK => 1
  | .BTN_EVT_PRESS => 2
  | .BTN_EVT_LONG_PRESS => 4
  | .BTN_EVT_ALL => 1 ||| 2 ||| 4

/-- Button active state, `enum btn_active_state_t` (Buttons.h 30-33). -/
inductive btn_active_state_t where
  | BTN_ACTIVE_LOW
  | BTN_ACTIVE_HIGH
  deriving DecidableEq

/-- The integer value of an enumerator of `btn_active_state_t`. -/
def btn_active_state_t.toInt : btn_active_state_t → Int
  | .BTN_ACTIVE_LOW => 0
  | .BTN_ACTIVE_HIGH => 1

/-- The record `struct btn_t` (Buttons.h 36-53).  The `uint32_t` fields are naturals (kept
below `2^32` by the operations), the `int` levels are integers, and a function pointer is
`none` when it is `NULL` and `some a` for the function at address `a`. -/
structure Btn where
  click_ms : Nat
  press_ms : Nat
  debounce_ms : Nat
  long_press_ms : Nat
  click_count : Nat
  events : Nat
  tick : Nat
  duration : Nat
  old_state : Int
  cur_state : Int
  new_state : Int
  active_state : btn_active_state_t
  gpio_read_cb : Option Nat
  tick_ms_cb : Option Nat
  btn_evt_cb : Option Nat
  deriving DecidableEq

/-- Subtraction of two `uint32_t` values: the difference modulo `2^32`. -/
def sub32 (a b : Nat) : Nat := (a + (2 ^ 32 - b % 2 ^ 32)) % 2 ^ 32

/-- One call of the event sink `btn_evt_cb(evt, btn)`: the event kind and the button as
the sink sees it through the pointer it is handed. -/
structure Call where
  evt : btn_evt_t
  btn : Btn
  deriving DecidableEq

/-- The machine state inside one run of `btn_loop` on a non-null button: the button, how
often the pin and the clock have been read so far, and the calls made to the sink. -/
structure Exec where
  btn : Btn
  pin_reads : Nat
  clock_reads : Nat
  sink : List Call
  deriving DecidableEq

/-- What a call of `btn_loop` leaves behind: the button behind the pointer (`none` for a
null pointer), the number of pin and clock reads, and the calls made to the sink. -/
structure Outcome where
  btn : Option Btn
  pin_reads : Nat
  clock_reads : Nat
  sink : List Call
  deriving DecidableEq

/-! ## Operations -/

/-- The function `is_btn_pressed` (Buttons.h 66-68). -/
def is_btn_pressed (b : Btn) : Bool := decide (b.cur_state = b.active_state.toInt)

/-- The test `(btn->events & e) == e` of lines 249-270. -/
def evt_enabled (b : Btn) (e : btn_evt_t) : Bool := decide (b.events &&& e.toNat = e.toNat)

/-- The level which line 90 of `btn_add` computes for active state `s`:
`(active_state == BTN_ACTIVE_LOW) ? BTN_ACTIVE_HIGH : BTN_ACTIVE_LOW`, the released level. -/
def released_level (s : btn_active_state_t) : Int :=
  if s = .BTN_ACTIVE_LOW then btn_active_state_t.BTN_ACTIVE_HIGH.toInt
  else btn_active_state_t.BTN_ACTIVE_LOW.toInt

/-- The function `btn_add` (Buttons.h 81-94) when `calloc` succeeds: every field zero,
then the assignments of lines 85-92. -/
def btn_add (s : btn_active_state_t) : Btn :=
  let old : Int := released_level s
  { click_ms := 200
    press_ms := 500
    debounce_ms := 20
    long_press_ms := 2000
    click_count := 0
    events := 0
    tick := 0
    duration := 0
    old_state := old
    cur_state := old
    new_state := old
    active_state := s
    gpio_read_cb := none
    tick_ms_cb := none
    btn_evt_cb := none }

/-- The state at the entry of `btn_loop`: nothing read, nothing emitted. -/
def Exec.start (b : Btn) : Exec :=
  { btn := b, pin_reads := 0, clock_reads := 0, sink := [] }

/-- One call `btn->tick_ms_cb()`: the next value of the clock oracle, as a `uint32_t`. -/
def Exec.tick_ms_cb (clk : Nat → Nat) (x : Exec) : Nat × Exec :=
  (clk x.clock_reads % 2 ^ 32, { x with clock_reads := x.clock_reads + 1 })

/-- One call `btn->btn_evt_cb(e, btn)`: the sink sees the button as it is now. -/
def Exec.btn_evt_cb (e : btn_evt_t) (x : Exec) : Exec :=
  { x with sink := x.sink ++ [{ evt := e, btn := x.btn }] }

/-- The assignment `btn->click_count = 0`. -/
def Exec.reset_click_count (x : Exec) : Exec :=
  { x with btn := { x.btn with click_count := 0 } }

/-- Line 226 of `btn_loop`: `btn->cur_state = btn->gpio_read_cb(btn)`. -/
def stage_sample (pin : Int) (x : Exec) : Exec :=
  { x with btn := { x.btn with cur_state := pin }, pin_reads := x.pin_reads + 1 }

/-- Lines 228-236 of `btn_loop`: the raw edge detector. -/
def stage_edge (clk : Nat → Nat) (x : Exec) : Exec :=
  if x.btn.cur_state ≠ x.btn.old_state then
    let x1 : Exec :=
      if is_btn_pressed x.btn then
        { x with btn := { x.btn with duration := 0 } }
      else
        let r := x.tick_ms_cb clk
        { r.2 with btn := { r.2.btn with duration := sub32 r.1 r.2.btn.tick } }
    let r := x1.tick_ms_cb clk
    { r.2 with btn := { r.2.btn with tick := r.1, old_state := r.2.btn.cur_state } }
  else x

/-- Lines 238-245 of `btn_loop`: the debounce confirmation. -/
def stage_debounce (clk : Nat → Nat) (x : Exec) : Exec :=
  if x.btn.new_state ≠ x.btn.cur_state then
    let r := x.tick_ms_cb clk
    if r.2.btn.debounce_ms ≤ sub32 r.1 r.2.btn.tick then
      let x1 : Exec :=
        if is_btn_pressed r.2.btn then
          { r.2 with btn := { r.2.btn with click_count := (r.2.btn.click_count + 1) % 2 ^ 32 } }
        else r.2
      { x1 with btn := { x1.btn with new_state := x1.btn.cur_state } }
    else r.2
  else x

/-- Lines 247-276 of `btn_loop`: the classification of an open interaction. -/
def stage_classify (clk : Nat → Nat) (x : Exec) : Exec :=
  if x.btn.click_count ≠ 0 then
    if is_btn_pressed x.btn then
      if evt_enabled x.btn .BTN_EVT_LONG_PRESS then
        let r := x.tick_ms_cb clk
        if r.2.btn.long_press_ms ≤ sub32 r.1 r.2.btn.tick then
          (r.2.btn_evt_cb .BTN_EVT_LONG_PRESS).reset_click_count
        else r.2
      else if evt_enabled x.btn .BTN_EVT_PRESS then
        let r := x.tick_ms_cb clk
        if r.2.btn.press_ms ≤ sub32 r.1 r.2.btn.tick then
          (r.2.btn_evt_cb .BTN_EVT_PRESS).reset_click_count
        else r.2
      else x
    else
      if x.btn.long_press_ms ≤ x.btn.duration then
        (if evt_enabled x.btn .BTN_EVT_LONG_PRESS then x.btn_evt_cb .BTN_EVT_LONG_PRESS
          else x).reset_click_count
      else if x.btn.press_ms ≤ x.btn.duration then
        (if evt_enabled x.btn .BTN_EVT_PRESS then x.btn_evt_cb .BTN_EVT_PRESS
          else x).reset_click_count
      else
        let r := x.tick_ms_cb clk
        if r.2.btn.click_ms ≤ sub32 r.1 r.2.btn.tick then
          (if evt_enabled r.2.btn .BTN_EVT_MULTI_CLICK then r.2.btn_evt_cb .BTN_EVT_MULTI_CLICK
            else r.2).reset_click_count
        else r.2
  else x

/-- The guard of lines 221-223: one of the three callbacks is `NULL`. -/
def not_ready (b : Btn) : Bool :=
  b.gpio_read_cb.isNone || b.tick_ms_cb.isNone || b.btn_evt_cb.isNone

/-- The state after the debounce stage (lines 226-245) of a step on a ready button. -/
def before_classify (pin : Int) (clk : Nat → Nat) (b : Btn) : Exec :=
  stage_debounce clk (stage_edge clk (stage_sample pin (Exec.start b)))

/-- The body of `btn_loop` (Buttons.h 219-277) on a non-null button. -/
def btn_loop_body (pin : Int) (clk : Nat → Nat) (b : Btn) : Exec :=
  if not_ready b then Exec.start b
  else stage_classify clk (before_classify pin clk b)

/-- What is left of a run on a non-null button. -/
def Exec.toOutcome (x : Exec) : Outcome :=
  { btn := some x.btn, pin_reads := x.pin_reads, clock_reads := x.clock_reads, sink := x.sink }

/-- The function `btn_loop` (Buttons.h 219-277), on a possibly null pointer.  `pin` is what
`gpio_read_cb` returns and `clk` the clock oracle of this call. -/
def btn_loop (pin : Int) (clk : Nat → Nat) : Option Btn → Outcome
  | none => { btn := none, pin_reads := 0, clock_reads := 0, sink := [] }
  | some b => (btn_loop_body pin clk b).toOutcome

/-- A sequence of calls of `btn_loop`, one per sample `(level, time)`; within one call the
clock stands still at the sample's time.  The reads and the sink calls add up. -/
def btn_loop_seq (p : Option Btn) : List (Int × Nat) → Outcome
  | [] => { btn := p, pin_reads := 0, clock_reads := 0, sink := [] }
  | s :: rest =>
    let o := btn_loop s.1 (fun _ => s.2) p
    let o' := btn_loop_seq o.btn rest
    { btn := o'.btn
      pin_reads := o.pin_reads + o'.pin_reads
      clock_reads := o.clock_reads + o'.clock_reads
      sink := o.sink ++ o'.sink }

/-- A button as `setup()` of the example (arduino_example.cpp 52-61) leaves it: created by
`btn_add s`, the callbacks at addresses `g`, `t`, `e` attached as pin reader, clock and
sink, and the events of the mask `m` enabled (`events |= m`). -/
def btn_setup (s : btn_active_state_t) (g t e : Nat) (m : Nat) : Btn :=
  { btn_add s with
    gpio_read_cb := some g
    tick_ms_cb := some t
    btn_evt_cb := some e
    events := (btn_add s).events ||| m }

/-- An active-low button with Press and LongPress enabled whose press, begun at time 0, has
been confirmed: the state the samples `(0, 0)`, `(0, 25)` lead to. -/
def held_button : Btn :=
  { btn_setup .BTN_ACTIVE_LOW 1 2 3 6 with
    click_count := 1
    old_state := 0
    cur_state := 0
    new_state := 0 }

/-- An active-low button with every event enabled after a confirmed press from time 0 to
time 90: the click is waiting for the multi-click window to close. -/
def clicked_button : Btn :=
  { btn_setup .BTN_ACTIVE_LOW 1 2 3 7 with
    click_count := 1
    tick := 90
    duration := 90
    new_state := 0 }

/-- The held button of `held_button` in an inverted configuration: the long-press
threshold (300) lies below the press threshold (500). -/
def inverted_button : Btn :=
  { held_button with long_press_ms := 300 }

/-- The button after a sequence of calls of `btn_loop` on a non-null button, one call per
sample `(level, time)`. -/
def seq_btn (b : Btn) : List (Int × Nat) → Btn
  | [] => b
  | s :: rest => seq_btn (btn_loop_body s.1 (fun _ => s.2) b).btn rest

/-- The calls of the sink in a sequence of calls of `btn_loop` on a non-null button. -/
def seq_sink (b : Btn) : List (Int × Nat) → List Call
  | [] => []
  | s :: rest =>
    (btn_loop_body s.1 (fun _ => s.2) b).sink ++
      seq_sink (btn_loop_body s.1 (fun _ => s.2) b).btn rest

/-- The samples in which the pin reads `level` at each of the times `ts`. -/
def samples_at (level : Int) (ts : List Nat) : List (Int × Nat) :=
  ts.map (fun t => (level, t))

/-- The button `b` in the run-time state given: the level last sampled `lo` (in
`old_state` and `cur_state`), the confirmed level `ln`, the counter, the time of the last
raw edge and the recorded duration. -/
def btn_at (b : Btn) (lo ln : Int) (cc tick dur : Nat) : Btn :=
  { b with
    old_state := lo
    cur_state := lo
    new_state := ln
    click_count := cc
    tick := tick
    duration := dur }

/-- One press-release cycle as the sampling loop sees it: the time of the sample that
shows the press, the times of the further samples while the button is held, the time of
the sample that shows the release, and the times of the further samples while it is
released. -/
structure Click where
  press : Nat
  held : List Nat
  release : Nat
  idle : List Nat

/-- The times of the samples of a cycle, in order. -/
def Click.times (c : Click) : List Nat :=
  c.press :: c.held ++ c.release :: c.idle

/-- The samples of a cycle on a button with active state `s`: the active level while
pressed, the released level afterwards. -/
def Click.samples (s : btn_active_state_t) (c : Click) : List (Int × Nat) :=
  samples_at s.toInt (c.press :: c.held) ++ samples_at (released_level s) (c.release :: c.idle)

/-- The times of the samples of a train of cycles. -/
def clicks_times : List Click → List Nat
  | [] => []
  | c :: cs => c.times ++ clicks_times cs

/-- The samples of a train of cycles. -/
def clicks_samples (s : btn_active_state_t) : List Click → List (Int × Nat)
  | [] => []
  | c :: cs => c.samples s ++ clicks_samples s cs

/-- The property `P` holds at every step of the sequence of calls of `btn_loop` on the
button `b`, one call per sample: `P` of the button before the step and of the sample. -/
def seq_all (P : Btn → Int × Nat → Prop) (b : Btn) : List (Int × Nat) → Prop
  | [] => True
  | x :: rest => P b x ∧ seq_all P (btn_loop_body x.1 (fun _ => x.2) b).btn rest

/-- A step that confirms nothing: the step with sample `x` leaves `new_state` as it was,
its debounce stage leaves `click_count` as it was, and if no click is pending the sink is
not called and none is pending afterwards. -/
def quiet_step (b : Btn) (x : Int × Nat) : Prop :=
  (btn_loop_body x.1 (fun _ => x.2) b).btn.new_state = b.new_state ∧
  (before_classify x.1 (fun _ => x.2) b).btn.click_count = b.click_count ∧
  (b.click_count = 0 →
    (btn_loop_body x.1 (fun _ => x.2) b).sink = [] ∧
    (btn_loop_body x.1 (fun _ => x.2) b).btn.click_count = 0)

/-- An active-low button with MultiClick enabled after one confirmed click (pressed from
time 0 to time 90) whose release has been confirmed: all three levels are the released
level and one click is pending. -/
def pending_button : Btn :=
  { btn_setup .BTN_ACTIVE_LOW 1 2 3 1 with
    click_count := 1
    tick := 90
    duration := 90 }

/-! ## The setters -/

/-- How a call of a setter ends: it returns `value` and leaves `btn` behind the pointer it
was handed (`none` for a null pointer), or it stores through a null pointer, which is
undefined behaviour. -/
inductive SetterEnd where
  | returns (value : Bool) (btn : Option Btn)
  | null_store
  deriving DecidableEq

/-- The complement `~x` of a `uint32_t`. -/
def not32 (x : Nat) : Nat := 2 ^ 32 - 1 - x % 2 ^ 32

/-- The function `btn_set_click_ms` (Buttons.h 104-108); the argument is a `uint32_t`. -/
def btn_set_click_ms (p : Option Btn) (ms : Nat) : SetterEnd :=
  match p with
  | none => .returns false none
  | some b => .returns true (some { b with click_ms := ms % 2 ^ 32 })

/-- The function `btn_set_press_ms` (Buttons.h 118-122); the argument is a `uint32_t`. -/
def btn_set_press_ms (p : Option Btn) (ms : Nat) : SetterEnd :=
  match p with
  | none => .returns false none
  | some b => .returns true (some { b with press_ms := ms % 2 ^ 32 })

/-- The function `btn_set_long_press_ms` (Buttons.h 132-136); the argument is a
`uint32_t`. -/
def btn_set_long_press_ms (p : Option Btn) (ms : Nat) : SetterEnd :=
  match p with
  | none => .returns false none
  | some b => .returns true (some { b with long_press_ms := ms % 2 ^ 32 })

/-- The function `btn_enable_evt` (Buttons.h 146-151): `btn->events |= evt`. -/
def btn_enable_evt (p : Option Btn) (evt : Nat) : SetterEnd :=
  match p with
  | none => .returns false none
  | some b => .returns true (some { b with events := b.events ||| (evt % 2 ^ 32) })

/-- The function `btn_disable_evt` (Buttons.h 161-166): `btn->events &= ~(evt)`. -/
def btn_disable_evt (p : Option Btn) (evt : Nat) : SetterEnd :=
  match p with
  | none => .returns false none
  | some b => .returns true (some { b with events := b.events &&& not32 evt })

/-- The function `btn_set_read_gpio_func` (Buttons.h 176-181): only `func` is tested, then
`btn->gpio_read_cb = func` is executed whatever `btn` is. -/
def btn_set_read_gpio_func (p : Option Btn) (func : Option Nat) : SetterEnd :=
  match func with
  | none => .returns false p
  | some f =>
    match p with
    | none => .null_store
    | some b => .returns true (some { b with gpio_read_cb := some f })

/-- The function `btn_set_evt_func` (Buttons.h 191-196): only `func` is tested, then
`btn->btn_evt_cb = func` is executed whatever `btn` is. -/
def btn_set_evt_func (p : Option Btn) (func : Option Nat) : SetterEnd :=
  match func with
  | none => .returns false p
  | some f =>
    match p with
    | none => .null_store
    | some b => .returns true (some { b with btn_evt_cb := some f })

/-- The function `btn_set_tick_ms_func` (Buttons.h 207-212): only `func` is tested, then
`btn->tick_ms_cb = func` is executed whatever `btn` is. -/
def btn_set_tick_ms_func (p : Option Btn) (func : Option Nat) : SetterEnd :=
  match func with
  | none => .returns false p
  | some f =>
    match p with
    | none => .null_store
    | some b => .returns true (some { b with tick_ms_cb := some f })

/-! ## Sequences of public operations -/

/-- Whether the debounce stage of a step confirms a transition to the active level: the
three tests of lines 238-240, on the state the edge detector leaves. -/
def confirms_press (pin : Int) (clk : Nat → Nat) : Option Btn → Bool
  | none => false
  | some b =>
    if not_ready b then false
    else
      let x := stage_edge clk (stage_sample pin (Exec.start b))
      decide (x.btn.new_state ≠ x.btn.cur_state) &&
        decide (x.btn.debounce_ms ≤ sub32 (x.tick_ms_cb clk).1 x.btn.tick) &&
        is_btn_pressed x.btn

/-- A public operation on the handle of a button: a call of `btn_loop`, with the pin
reading and the clock oracle of that call, or a call of one of the eight setters. -/
inductive Op where
  | loop (pin : Int) (clk : Nat → Nat)
  | set_click_ms (ms : Nat)
  | set_press_ms (ms : Nat)
  | set_long_press_ms (ms : Nat)
  | enable_evt (evt : Nat)
  | disable_evt (evt : Nat)
  | set_read_gpio_func (func : Option Nat)
  | set_evt_func (func : Option Nat)
  | set_tick_ms_func (func : Option Nat)

/-- What a sequence of operations leaves: the button behind the handle, the calls of the
sink in order, the number of steps whose debounce stage confirmed a press, and whether a
store through a null pointer happened (the history ends there). -/
structure History where
  btn : Option Btn
  sink : List Call
  confirmed : Nat
  faulted : Bool

/-- The history of one call of a setter on the handle `p`. -/
def SetterEnd.history (p : Option Btn) : SetterEnd → History
  | .returns _ b => { btn := b, sink := [], confirmed := 0, faulted := false }
  | .null_store => { btn := p, sink := [], confirmed := 0, faulted := true }

/-- The history of one operation on the handle `p`. -/
def Op.apply (p : Option Btn) : Op → History
  | .loop pin clk =>
    { btn := (btn_loop pin clk p).btn
      sink := (btn_loop pin clk p).sink
      confirmed := if confirms_press pin clk p then 1 else 0
      faulted := false }
  | .set_click_ms ms => (btn_set_click_ms p ms).history p
  | .set_press_ms ms => (btn_set_press_ms p ms).history p
  | .set_long_press_ms ms => (btn_set_long_press_ms p ms).history p
  | .enable_evt evt => (btn_enable_evt p evt).history p
  | .disable_evt evt => (btn_disable_evt p evt).history p
  | .set_read_gpio_func func => (btn_set_read_gpio_func p func).history p
  | .set_evt_func func => (btn_set_evt_func p func).history p
  | .set_tick_ms_func func => (btn_set_tick_ms_func p func).history p

/-- The history of a sequence of operations on the handle `p`, in order. -/
def run_ops (p : Option Btn) : List Op → History
  | [] => { btn := p, sink := [], confirmed := 0, faulted := false }
  | op :: rest =>
    let h := op.apply p
    if h.faulted then h
    else
      let h' := run_ops h.btn rest
      { btn := h'.btn
        sink := h.sink ++ h'.sink
        confirmed := h.confirmed + h'.confirmed
        faulted := h'.faulted }

/-- Whether a click is pending behind the handle: 1 if `click_count` is not 0, else 0. -/
def pending_clicks : Option Btn → Nat
  | none => 0
  | some b => if b.click_count = 0 then 0 else 1

/-- The operations of a single click on a button set up as in the example: the three
callbacks attached, every event enabled, then the samples `(0, 0)`, `(0, 25)`, `(1, 90)`,
`(1, 300)`. -/
def example_ops : List Op :=
  [.set_read_gpio_func (some 1), .set_tick_ms_func (some 2), .set_evt_func (some 3),
    .enable_evt 7, .loop 0 (fun _ => 0), .loop 0 (fun _ => 25), .loop 1 (fun _ => 90),
    .loop 1 (fun _ => 300)]

/-! ## The clock moved forward -/

/-- The button with its `tick` moved forward by `k` on the 32-bit clock. -/
def shift_tick (k : Nat) (b : Btn) : Btn :=
  { b with tick := (b.tick + k) % 2 ^ 32 }

/-- A call of the sink that sees the button with its `tick` moved forward by `k`. -/
def Call.shift (k : Nat) (c : Call) : Call :=
  { c with btn := shift_tick k c.btn }

/-- A machine state with every `tick` in it moved forward by `k`. -/
def Exec.shift (k : Nat) (x : Exec) : Exec :=
  { x with btn := shift_tick k x.btn, sink := x.sink.map (Call.shift k) }

/-- An outcome with every `tick` in it moved forward by `k`. -/
def Outcome.shift (k : Nat) (o : Outcome) : Outcome :=
  { o with btn := o.btn.map (shift_tick k), sink := o.sink.map (Call.shift k) }

/-- The clock oracle moved forward by `k` on the 32-bit clock. -/
def shift_clock (k : Nat) (clk : Nat → Nat) : Nat → Nat :=
  fun j => (clk j + k) % 2 ^ 32

/-- An active-low button with MultiClick enabled whose press was seen at clock value
`2^32 - 10`, ten milliseconds before the 32-bit clock wraps, and is not yet confirmed. -/
def wrapping_button : Btn :=
  btn_at (btn_setup .BTN_ACTIVE_LOW 1 2 3 1) 0 1 0 (2 ^ 32 - 10) 0

/-! ## Basic facts -/

theorem sub32_mod_left (a b : Nat) : sub32 (a % 2 ^ 32) b = sub32 a b := by
  unfold sub32; omega

theorem sub32_of_le {a b : Nat} (h : b ≤ a) (ha : a < 2 ^ 32) : sub32 a b = a - b := by
  unfold sub32; omega

theorem btn_loop_ready (pin : Int) (clk : Nat → Nat) (b : Btn) (h : not_ready b = false) :
    btn_loop pin clk (some b) = (stage_classify clk (before_classify pin clk b)).toOutcome := by
  simp [btn_loop, btn_loop_body, h]

theorem btn_loop_some_sink (v : Int) (clk : Nat → Nat) (b : Btn) :
    (btn_loop v clk (some b)).sink = (btn_loop_body v clk b).sink := rfl

theorem btn_loop_some_btn (v : Int) (clk : Nat → Nat) (b : Btn) :
    (btn_loop v clk (some b)).btn = some (btn_loop_body v clk b).btn := rfl

theorem btn_loop_unready (pin : Int) (clk : Nat → Nat) (b : Btn) (h : not_ready b = true) :
    btn_loop pin clk (some b) = { btn := some b, pin_reads := 0, clock_reads := 0, sink := [] } := by
  simp [btn_loop, btn_loop_body, h, Exec.start, Exec.toOutcome]

/-- The stages before the classification call the sink never. -/
theorem before_classify_sink (pin : Int) (clk : Nat → Nat) (b : Btn) :
    (before_classify pin clk b).sink = [] := by
  simp only [before_classify, stage_debounce, stage_edge, stage_sample, Exec.start,
    Exec.tick_ms_cb]
  split_ifs <;> rfl

/-- The stages before the classification store the sample and leave the configuration. -/
theorem before_classify_frame (pin : Int) (clk : Nat → Nat) (b : Btn) :
    (before_classify pin clk b).btn.cur_state = pin ∧
    (before_classify pin clk b).btn.events = b.events ∧
    (before_classify pin clk b).btn.active_state = b.active_state ∧
    (before_classify pin clk b).btn.click_ms = b.click_ms ∧
    (before_classify pin clk b).btn.press_ms = b.press_ms ∧
    (before_classify pin clk b).btn.long_press_ms = b.long_press_ms ∧
    (before_classify pin clk b).btn.debounce_ms = b.debounce_ms ∧
    (before_classify pin clk b).btn.gpio_read_cb = b.gpio_read_cb ∧
    (before_classify pin clk b).btn.tick_ms_cb = b.tick_ms_cb ∧
    (before_classify pin clk b).btn.btn_evt_cb = b.btn_evt_cb := by
  simp only [before_classify, stage_debounce, stage_edge, stage_sample, Exec.start,
    Exec.tick_ms_cb]
  split_ifs <;> simp

theorem before_classify_pressed (pin : Int) (clk : Nat → Nat) (b : Btn) :
    is_btn_pressed (before_classify pin clk b).btn = decide (pin = b.active_state.toInt) := by
  obtain ⟨h1, -, h3, -⟩ := before_classify_frame pin clk b
  simp [is_btn_pressed, h1, h3]

theorem before_classify_enabled (pin : Int) (clk : Nat → Nat) (b : Btn) (e : btn_evt_t) :
    evt_enabled (before_classify pin clk b).btn e = evt_enabled b e := by
  obtain ⟨-, h2, -⟩ := before_classify_frame pin clk b
  simp [evt_enabled, h2]

/-- The classification calls the sink at most once. -/
theorem stage_classify_sink_length (clk : Nat → Nat) (x : Exec) (h : x.sink = []) :
    (stage_classify clk x).sink.length ≤ 1 := by
  simp only [stage_classify, Exec.tick_ms_cb, Exec.btn_evt_cb, Exec.reset_click_count]
  split_ifs <;> simp [h]

/-- Every call of the sink in the classification is followed by the reset of the counter. -/
theorem stage_classify_emit_resets (clk : Nat → Nat) (x : Exec) (h : x.sink = [])
    (hne : (stage_classify clk x).sink ≠ []) : (stage_classify clk x).btn.click_count = 0 := by
  revert hne
  simp only [stage_classify, Exec.tick_ms_cb, Exec.btn_evt_cb, Exec.reset_click_count]
  split_ifs <;> simp [h]

/-- The classification calls the sink only with an enabled kind, and shows it the button as
it enters the classification. -/
theorem stage_classify_enabled (clk : Nat → Nat) (x : Exec) (h : x.sink = []) (c : Call)
    (hc : c ∈ (stage_classify clk x).sink) : evt_enabled x.btn c.evt = true ∧ c.btn = x.btn := by
  revert hc
  simp only [stage_classify, Exec.tick_ms_cb, Exec.btn_evt_cb, Exec.reset_click_count]
  split_ifs <;> simp_all

/-- The classification on the pressed branch (lines 248-259), the clock standing at `now`. -/
theorem stage_classify_pressed (now : Nat) (x : Exec) (hs : x.sink = [])
    (hc : x.btn.click_count ≠ 0) (hp : is_btn_pressed x.btn = true) :
    (evt_enabled x.btn .BTN_EVT_LONG_PRESS = true →
        x.btn.long_press_ms ≤ sub32 now x.btn.tick →
      (stage_classify (fun _ => now) x).sink = [{ evt := .BTN_EVT_LONG_PRESS, btn := x.btn }] ∧
      (stage_classify (fun _ => now) x).btn.click_count = 0) ∧
    (evt_enabled x.btn .BTN_EVT_LONG_PRESS = false →
        evt_enabled x.btn .BTN_EVT_PRESS = true →
        x.btn.press_ms ≤ sub32 now x.btn.tick →
      (stage_classify (fun _ => now) x).sink = [{ evt := .BTN_EVT_PRESS, btn := x.btn }] ∧
      (stage_classify (fun _ => now) x).btn.click_count = 0) ∧
    (¬ (evt_enabled x.btn .BTN_EVT_LONG_PRESS = true ∧
          x.btn.long_press_ms ≤ sub32 now x.btn.tick) →
      ¬ (evt_enabled x.btn .BTN_EVT_LONG_PRESS = false ∧
          evt_enabled x.btn .BTN_EVT_PRESS = true ∧
          x.btn.press_ms ≤ sub32 now x.btn.tick) →
      (stage_classify (fun _ => now) x).sink = [] ∧
      (stage_classify (fun _ => now) x).btn.click_count = x.btn.click_count) := by
  simp only [stage_classify, Exec.tick_ms_cb, Exec.btn_evt_cb, Exec.reset_click_count,
    sub32_mod_left, hc, hp, hs]
  refine ⟨?_, ?_, ?_⟩
  · intro h1 h2; simp [h1, h2, hc]
  · intro h1 h2 h3; simp [h1, h2, h3, hc]
  · intro h1 h2
    split_ifs <;> simp_all

/-- The classification on the released branch (lines 260-275), the clock standing at `now`. -/
theorem stage_classify_released (now : Nat) (x : Exec) (hs : x.sink = [])
    (hc : x.btn.click_count ≠ 0) (hp : is_btn_pressed x.btn = false) :
    (x.btn.long_press_ms ≤ x.btn.duration →
      (stage_classify (fun _ => now) x).sink =
        (if evt_enabled x.btn .BTN_EVT_LONG_PRESS then
          [{ evt := .BTN_EVT_LONG_PRESS, btn := x.btn }] else []) ∧
      (stage_classify (fun _ => now) x).btn.click_count = 0) ∧
    (x.btn.duration < x.btn.long_press_ms → x.btn.press_ms ≤ x.btn.duration →
      (stage_classify (fun _ => now) x).sink =
        (if evt_enabled x.btn .BTN_EVT_PRESS then
          [{ evt := .BTN_EVT_PRESS, btn := x.btn }] else []) ∧
      (stage_classify (fun _ => now) x).btn.click_count = 0) ∧
    (x.btn.duration < x.btn.long_press_ms → x.btn.duration < x.btn.press_ms →
        x.btn.click_ms ≤ sub32 now x.btn.tick →
      (stage_classify (fun _ => now) x).sink =
        (if evt_enabled x.btn .BTN_EVT_MULTI_CLICK then
          [{ evt := .BTN_EVT_MULTI_CLICK, btn := x.btn }] else []) ∧
      (stage_classify (fun _ => now) x).btn.click_count = 0) ∧
    (x.btn.duration < x.btn.long_press_ms → x.btn.duration < x.btn.press_ms →
        sub32 now x.btn.tick < x.btn.click_ms →
      (stage_classify (fun _ => now) x).sink = [] ∧
      (stage_classify (fun _ => now) x).btn.click_count = x.btn.click_count) := by
  simp only [stage_classify, Exec.tick_ms_cb, Exec.btn_evt_cb, Exec.reset_click_count,
    sub32_mod_left, hc, hp, hs]
  refine ⟨?_, ?_, ?_, ?_⟩
  · intro h1
    split_ifs <;> simp_all
  · intro h1 h2
    split_ifs <;> first | omega | simp_all
  · intro h1 h2 h3
    split_ifs <;> first | omega | simp_all
  · intro h1 h2 h3
    split_ifs <;> first | omega | simp_all

/-! ## The claims about a single step -/

/-- C3, as amended.  In a step on a ready button in which, after the debounce stage,
`click_count > 0` and the sampled level is the active level, with
`elapsed = now - tick`: if LongPress is enabled and `elapsed >= long_press_ms` the sink is
called with `BTN_EVT_LONG_PRESS` and `click_count` becomes 0; if LongPress is disabled,
Press is enabled and `elapsed >= press_ms` the sink is called with `BTN_EVT_PRESS` and
`click_count` becomes 0; in every other case (so also when both are enabled and
`press_ms <= elapsed < long_press_ms`) the sink is not called and `click_count` keeps the
value it has after the debounce stage. -/
theorem btn_loop_pressed_branch (pin : Int) (now : Nat) (b : Btn) (hr : not_ready b = false) :
    let x := before_classify pin (fun _ => now) b
    let o := btn_loop pin (fun _ => now) (some b)
    let elapsed := sub32 now x.btn.tick
    x.btn.click_count ≠ 0 → pin = b.active_state.toInt →
      (evt_enabled b .BTN_EVT_LONG_PRESS = true → b.long_press_ms ≤ elapsed →
        o.sink = [{ evt := .BTN_EVT_LONG_PRESS, btn := x.btn }] ∧
        o.btn.map Btn.click_count = some 0) ∧
      (evt_enabled b .BTN_EVT_LONG_PRESS = false → evt_enabled b .BTN_EVT_PRESS = true →
          b.press_ms ≤ elapsed →
        o.sink = [{ evt := .BTN_EVT_PRESS, btn := x.btn }] ∧
        o.btn.map Btn.click_count = some 0) ∧
      (¬ (evt_enabled b .BTN_EVT_LONG_PRESS = true ∧ b.long_press_ms ≤ elapsed) →
        ¬ (evt_enabled b .BTN_EVT_LONG_PRESS = false ∧ evt_enabled b .BTN_EVT_PRESS = true ∧
            b.press_ms ≤ elapsed) →
        o.sink = [] ∧ o.btn.map Btn.click_count = some x.btn.click_count) := by
  intro x o elapsed hc hp
  have hp' : is_btn_pressed x.btn = true := by
    simp [x, before_classify_pressed, hp]
  obtain ⟨-, -, -, -, h5, h6, -⟩ := before_classify_frame pin (fun _ => now) b
  have key := stage_classify_pressed now x (before_classify_sink _ _ _) hc hp'
  simp only [x, before_classify_enabled, h5, h6] at key
  simpa [o, elapsed, x, btn_loop_ready _ _ _ hr, Exec.toOutcome] using key

/-- An instance of C3 as amended: the button held since time 0 with Press and LongPress
enabled emits LongPress at time 2500, and nothing at time 600. -/
theorem btn_loop_pressed_branch_witness :
    ((btn_loop 0 (fun _ => 2500) (some held_button)).sink =
        [{ evt := .BTN_EVT_LONG_PRESS, btn := held_button }] ∧
      (btn_loop 0 (fun _ => 2500) (some held_button)).btn.map Btn.click_count = some 0) ∧
    ((btn_loop 0 (fun _ => 600) (some held_button)).sink = [] ∧
      (btn_loop 0 (fun _ => 600) (some held_button)).btn.map Btn.click_count = some 1) :=
  ⟨(btn_loop_pressed_branch 0 2500 held_button (by decide) (by decide) (by decide)).1
      (by decide) (by decide),
   (btn_loop_pressed_branch 0 600 held_button (by decide) (by decide) (by decide)).2.2
      (by decide) (by decide)⟩

/-- C3 fails as stated: on the button held since time 0 with Press and LongPress enabled
(the state reached from a fresh button by the samples `(0, 0)`, `(0, 25)`), the step at
time 600 has `click_count > 0` after the debounce stage, the active level,
`press_ms <= elapsed < long_press_ms` and Press enabled, and yet the sink is not called
and `click_count` stays 1. -/
theorem btn_loop_pressed_branch_counterexample :
    (btn_loop_seq (some (btn_setup .BTN_ACTIVE_LOW 1 2 3 6)) [(0, 0), (0, 25)]).btn
        = some held_button ∧
    not_ready held_button = false ∧
    (before_classify 0 (fun _ => 600) held_button).btn.click_count ≠ 0 ∧
    (0 : Int) = held_button.active_state.toInt ∧
    ¬ (evt_enabled held_button .BTN_EVT_LONG_PRESS = true ∧
        held_button.long_press_ms ≤
          sub32 600 (before_classify 0 (fun _ => 600) held_button).btn.tick) ∧
    evt_enabled held_button .BTN_EVT_PRESS = true ∧
    held_button.press_ms ≤ sub32 600 (before_classify 0 (fun _ => 600) held_button).btn.tick ∧
    (btn_loop 0 (fun _ => 600) (some held_button)).sink = [] ∧
    (btn_loop 0 (fun _ => 600) (some held_button)).btn.map Btn.click_count = some 1 := by
  decide

/-- C4.  In a step on a ready button in which, after the debounce stage, `click_count > 0`
and the sampled level differs from the active level, the outcome is decided in this order:
if `duration >= long_press_ms`, LongPress is emitted exactly when it is enabled and
`click_count` becomes 0; else if `duration >= press_ms`, Press is emitted exactly when it
is enabled and `click_count` becomes 0; else if `now - tick >= click_ms`, MultiClick is
emitted exactly when it is enabled and `click_count` becomes 0; otherwise nothing is
emitted and `click_count` is unchanged.  In the first three cases the counter is reset
whether or not the event is enabled. -/
theorem btn_loop_released_branch (pin : Int) (now : Nat) (b : Btn) (hr : not_ready b = false) :
    let x := before_classify pin (fun _ => now) b
    let o := btn_loop pin (fun _ => now) (some b)
    let elapsed := sub32 now x.btn.tick
    x.btn.click_count ≠ 0 → pin ≠ b.active_state.toInt →
      (b.long_press_ms ≤ x.btn.duration →
        o.sink = (if evt_enabled b .BTN_EVT_LONG_PRESS then
          [{ evt := .BTN_EVT_LONG_PRESS, btn := x.btn }] else []) ∧
        o.btn.map Btn.click_count = some 0) ∧
      (x.btn.duration < b.long_press_ms → b.press_ms ≤ x.btn.duration →
        o.sink = (if evt_enabled b .BTN_EVT_PRESS then
          [{ evt := .BTN_EVT_PRESS, btn := x.btn }] else []) ∧
        o.btn.map Btn.click_count = some 0) ∧
      (x.btn.duration < b.long_press_ms → x.btn.duration < b.press_ms →
          b.click_ms ≤ elapsed →
        o.sink = (if evt_enabled b .BTN_EVT_MULTI_CLICK then
          [{ evt := .BTN_EVT_MULTI_CLICK, btn := x.btn }] else []) ∧
        o.btn.map Btn.click_count = some 0) ∧
      (x.btn.duration < b.long_press_ms → x.btn.duration < b.press_ms →
          elapsed < b.click_ms →
        o.sink = [] ∧ o.btn.map Btn.click_count = some x.btn.click_count) := by
  intro x o elapsed hc hp
  have hp' : is_btn_pressed x.btn = false := by
    simp [x, before_classify_pressed, hp]
  obtain ⟨-, -, -, h4, h5, h6, -⟩ := before_classify_frame pin (fun _ => now) b
  have key := stage_classify_released now x (before_classify_sink _ _ _) hc hp'
  simp only [x, before_classify_enabled, h4, h5, h6] at key
  simpa [o, elapsed, x, btn_loop_ready _ _ _ hr, Exec.toOutcome] using key

/-- An instance of C4: the click that ended at time 90 is resolved into a MultiClick by
the released sample at time 300, and the counter is reset. -/
theorem btn_loop_released_branch_witness :
    (btn_loop 1 (fun _ => 300) (some clicked_button)).sink =
      (if evt_enabled clicked_button .BTN_EVT_MULTI_CLICK then
        [{ evt := .BTN_EVT_MULTI_CLICK,
           btn := (before_classify 1 (fun _ => 300) clicked_button).btn }] else []) ∧
    (btn_loop 1 (fun _ => 300) (some clicked_button)).btn.map Btn.click_count = some 0 :=
  (btn_loop_released_branch 1 300 clicked_button (by decide) (by decide) (by decide)).2.2.1
    (by decide) (by decide) (by decide)

/-- Every call of the sink in a call of `btn_loop` has an enabled kind. -/
theorem btn_loop_enabled_only (pin : Int) (clk : Nat → Nat) (p : Option Btn) (c : Call)
    (hc : c ∈ (btn_loop pin clk p).sink) :
    ∃ b, p = some b ∧ evt_enabled b c.evt = true ∧ c.btn.events = b.events := by
  cases p with
  | none => simp [btn_loop] at hc
  | some b =>
    refine ⟨b, rfl, ?_⟩
    cases hr : not_ready b with
    | true => simp [btn_loop_unready _ _ _ hr] at hc
    | false =>
      rw [btn_loop_ready _ _ _ hr] at hc
      have h := stage_classify_enabled clk _ (before_classify_sink pin clk b) c hc
      rw [before_classify_enabled] at h
      refine ⟨h.1, ?_⟩
      rw [h.2]
      exact (before_classify_frame pin clk b).2.1

/-- C6.  When at least one of `gpio_read_cb`, `tick_ms_cb`, `btn_evt_cb` is unset, and
also on a null instance, `btn_loop` leaves every field of the button unchanged, reads
neither the pin nor the clock, and does not call the sink. -/
theorem btn_loop_not_ready_noop (pin : Int) (clk : Nat → Nat) (p : Option Btn)
    (h : ∀ b, p = some b →
      b.gpio_read_cb = none ∨ b.tick_ms_cb = none ∨ b.btn_evt_cb = none) :
    btn_loop pin clk p = { btn := p, pin_reads := 0, clock_reads := 0, sink := [] } := by
  cases p with
  | none => rfl
  | some b =>
    apply btn_loop_unready
    rcases h b rfl with h | h | h <;> simp [not_ready, h]

/-- Instances of C6: a button with only the pin reader and the clock attached, and the
null instance. -/
theorem btn_loop_not_ready_noop_witness :
    btn_loop 0 (fun k => 100 + k) (some { held_button with btn_evt_cb := none }) =
      { btn := some { held_button with btn_evt_cb := none },
        pin_reads := 0, clock_reads := 0, sink := [] } ∧
    btn_loop 0 (fun k => 100 + k) none =
      { btn := none, pin_reads := 0, clock_reads := 0, sink := [] } :=
  ⟨btn_loop_not_ready_noop 0 (fun k => 100 + k) (some { held_button with btn_evt_cb := none })
      (by intro b hb; cases hb; exact Or.inr (Or.inr rfl)),
   btn_loop_not_ready_noop 0 (fun k => 100 + k) none (by intro b hb; cases hb)⟩

/-- C8.  On the pressed branch LongPress goes first: in a step on a ready button in which,
after the debounce stage, `click_count > 0`, the sampled level is the active level,
LongPress is enabled and `now - tick >= long_press_ms`, the sink is called with
`BTN_EVT_LONG_PRESS` and not with `BTN_EVT_PRESS`, whether or not Press is enabled.  This
holds for every configuration of the thresholds, `long_press_ms <= press_ms` included. -/
theorem btn_loop_long_press_first (pin : Int) (now : Nat) (b : Btn)
    (hr : not_ready b = false) :
    let x := before_classify pin (fun _ => now) b
    let o := btn_loop pin (fun _ => now) (some b)
    x.btn.click_count ≠ 0 → pin = b.active_state.toInt →
      evt_enabled b .BTN_EVT_LONG_PRESS = true →
      b.long_press_ms ≤ sub32 now x.btn.tick →
      o.sink = [{ evt := .BTN_EVT_LONG_PRESS, btn := x.btn }] ∧
      ∀ c ∈ o.sink, c.evt ≠ .BTN_EVT_PRESS := by
  intro x o hc hp he hl
  have hp' : is_btn_pressed x.btn = true := by
    simp [x, before_classify_pressed, hp]
  obtain ⟨-, -, -, -, -, h6, -⟩ := before_classify_frame pin (fun _ => now) b
  have key := (stage_classify_pressed now x (before_classify_sink _ _ _) hc hp').1
    (by simpa [x, before_classify_enabled] using he) (by simpa [x, h6] using hl)
  have hs : o.sink = [{ evt := .BTN_EVT_LONG_PRESS, btn := x.btn }] := by
    simpa [o, x, btn_loop_ready _ _ _ hr, Exec.toOutcome] using key.1
  refine ⟨hs, ?_⟩
  intro c hcm
  rw [hs] at hcm
  simp at hcm
  simp [hcm]

/-- An instance of C8 in an inverted configuration (`long_press_ms = 300`,
`press_ms = 500`, both events enabled): at time 400 the held button emits LongPress. -/
theorem btn_loop_long_press_first_witness :
    inverted_button.long_press_ms ≤ inverted_button.press_ms ∧
    evt_enabled inverted_button .BTN_EVT_PRESS = true ∧
    (btn_loop 0 (fun _ => 400) (some inverted_button)).sink =
      [{ evt := .BTN_EVT_LONG_PRESS,
         btn := (before_classify 0 (fun _ => 400) inverted_button).btn }] ∧
    ∀ c ∈ (btn_loop 0 (fun _ => 400) (some inverted_button)).sink, c.evt ≠ .BTN_EVT_PRESS :=
  ⟨by decide, by decide,
    btn_loop_long_press_first 0 400 inverted_button (by decide) (by decide) (by decide)
      (by decide) (by decide)⟩

/-- C9.  A single call of `btn_loop` calls the event sink zero times or once, whatever the
button (null and not ready included), the pin reading and the clock. -/
theorem btn_loop_sink_at_most_once (pin : Int) (clk : Nat → Nat) (p : Option Btn) :
    (btn_loop pin clk p).sink.length ≤ 1 := by
  cases p with
  | none => simp [btn_loop]
  | some b =>
    cases hr : not_ready b with
    | true => simp [btn_loop_unready _ _ _ hr]
    | false =>
      rw [btn_loop_ready _ _ _ hr]
      exact stage_classify_sink_length clk _ (before_classify_sink pin clk b)

/-- C10.  If a call of `btn_loop` calls the sink, with whatever event kind, then
`click_count` is 0 when the call returns. -/
theorem btn_loop_emit_resets (pin : Int) (clk : Nat → Nat) (p : Option Btn)
    (h : (btn_loop pin clk p).sink ≠ []) :
    (btn_loop pin clk p).btn.map Btn.click_count = some 0 := by
  cases p with
  | none => simp [btn_loop] at h
  | some b =>
    cases hr : not_ready b with
    | true => simp [btn_loop_unready _ _ _ hr] at h
    | false =>
      rw [btn_loop_ready _ _ _ hr] at h ⊢
      have := stage_classify_emit_resets clk _ (before_classify_sink pin clk b) h
      simpa [Exec.toOutcome] using this

/-- An instance of C10: the step that emits the MultiClick of `clicked_button` at time 300
returns with `click_count = 0`. -/
theorem btn_loop_emit_resets_witness :
    (btn_loop 1 (fun _ => 300) (some clicked_button)).sink ≠ [] ∧
    (btn_loop 1 (fun _ => 300) (some clicked_button)).btn.map Btn.click_count = some 0 :=
  ⟨by decide, btn_loop_emit_resets 1 (fun _ => 300) (some clicked_button) (by decide)⟩

/-- The classification changes at most the counter, which it can only reset. -/
theorem stage_classify_btn (clk : Nat → Nat) (x : Exec) :
    (stage_classify clk x).btn = x.btn ∨
    (stage_classify clk x).btn = { x.btn with click_count := 0 } := by
  simp only [stage_classify, Exec.tick_ms_cb, Exec.btn_evt_cb, Exec.reset_click_count]
  split_ifs <;> simp

/-- With no interaction open the classification does nothing. -/
theorem stage_classify_idle (clk : Nat → Nat) (x : Exec) (h : x.btn.click_count = 0) :
    stage_classify clk x = x := by
  simp [stage_classify, h]

/-- A call of `btn_loop` leaves the configuration of the button as it is. -/
theorem btn_loop_body_frame (pin : Int) (clk : Nat → Nat) (b : Btn) :
    (btn_loop_body pin clk b).btn.events = b.events ∧
    (btn_loop_body pin clk b).btn.active_state = b.active_state ∧
    (btn_loop_body pin clk b).btn.click_ms = b.click_ms ∧
    (btn_loop_body pin clk b).btn.press_ms = b.press_ms ∧
    (btn_loop_body pin clk b).btn.long_press_ms = b.long_press_ms ∧
    (btn_loop_body pin clk b).btn.debounce_ms = b.debounce_ms ∧
    (btn_loop_body pin clk b).btn.gpio_read_cb = b.gpio_read_cb ∧
    (btn_loop_body pin clk b).btn.tick_ms_cb = b.tick_ms_cb ∧
    (btn_loop_body pin clk b).btn.btn_evt_cb = b.btn_evt_cb := by
  unfold btn_loop_body
  split_ifs with h
  · simp [Exec.start]
  · obtain ⟨-, h2, h3, h4, h5, h6, h7, h8, h9, h10⟩ := before_classify_frame pin clk b
    rcases stage_classify_btn clk (before_classify pin clk b) with hb | hb <;>
      simp [hb, h2, h3, h4, h5, h6, h7, h8, h9, h10]

theorem btn_loop_body_not_ready (pin : Int) (clk : Nat → Nat) (b : Btn) :
    not_ready (btn_loop_body pin clk b).btn = not_ready b := by
  obtain ⟨-, -, -, -, -, -, h7, h8, h9⟩ := btn_loop_body_frame pin clk b
  simp [not_ready, h7, h8, h9]

theorem btn_loop_body_enabled (pin : Int) (clk : Nat → Nat) (b : Btn) (e : btn_evt_t) :
    evt_enabled (btn_loop_body pin clk b).btn e = evt_enabled b e := by
  obtain ⟨h1, -⟩ := btn_loop_body_frame pin clk b
  simp [evt_enabled, h1]

/-! ## Sequences of steps -/

theorem btn_loop_seq_none (l : List (Int × Nat)) :
    btn_loop_seq none l = { btn := none, pin_reads := 0, clock_reads := 0, sink := [] } := by
  induction l with
  | nil => rfl
  | cons s rest ih => simp [btn_loop_seq, btn_loop, ih]

theorem btn_loop_seq_btn (b : Btn) (l : List (Int × Nat)) :
    (btn_loop_seq (some b) l).btn = some (seq_btn b l) := by
  induction l generalizing b with
  | nil => rfl
  | cons s rest ih => simp [btn_loop_seq, btn_loop, seq_btn, Exec.toOutcome, ih]

theorem btn_loop_seq_sink (b : Btn) (l : List (Int × Nat)) :
    (btn_loop_seq (some b) l).sink = seq_sink b l := by
  induction l generalizing b with
  | nil => rfl
  | cons s rest ih => simp [btn_loop_seq, btn_loop, seq_sink, Exec.toOutcome, ih]

theorem seq_btn_append (b : Btn) (l1 l2 : List (Int × Nat)) :
    seq_btn b (l1 ++ l2) = seq_btn (seq_btn b l1) l2 := by
  induction l1 generalizing b with
  | nil => rfl
  | cons s rest ih => simp [seq_btn, ih]

theorem seq_sink_append (b : Btn) (l1 l2 : List (Int × Nat)) :
    seq_sink b (l1 ++ l2) = seq_sink b l1 ++ seq_sink (seq_btn b l1) l2 := by
  induction l1 generalizing b with
  | nil => rfl
  | cons s rest ih => simp [seq_btn, seq_sink, ih]

theorem seq_btn_enabled (b : Btn) (l : List (Int × Nat)) (e : btn_evt_t) :
    evt_enabled (seq_btn b l) e = evt_enabled b e := by
  induction l generalizing b with
  | nil => rfl
  | cons s rest ih => simp [seq_btn, ih, btn_loop_body_enabled]

/-- No step of a sequence calls the sink with a kind that is disabled at the start. -/
theorem seq_sink_disabled (b : Btn) (k : btn_evt_t) (h : evt_enabled b k = false)
    (l : List (Int × Nat)) : ∀ c ∈ seq_sink b l, c.evt ≠ k := by
  induction l generalizing b with
  | nil => simp [seq_sink]
  | cons s rest ih =>
    intro c hc
    simp only [seq_sink, List.mem_append] at hc
    rcases hc with hc | hc
    · have hc' : c ∈ (btn_loop s.1 (fun _ => s.2) (some b)).sink := by
        simpa [btn_loop, Exec.toOutcome] using hc
      obtain ⟨b', hb', he, -⟩ := btn_loop_enabled_only _ _ _ c hc'
      cases hb'
      intro hk
      rw [hk, h] at he
      exact Bool.noConfusion he
    · exact ih _ (by rw [btn_loop_body_enabled]; exact h) c hc

/-! ## Single steps from explicit states -/

/-- The button after the stages before the classification, the clock standing at `t`. -/
theorem before_classify_btn (v : Int) (t : Nat) (b : Btn) :
    (before_classify v (fun _ => t) b).btn =
      { b with
        cur_state := v
        old_state := v
        tick := if v ≠ b.old_state then t % 2 ^ 32 else b.tick
        duration :=
          if v ≠ b.old_state then (if v = b.active_state.toInt then 0 else sub32 t b.tick)
          else b.duration
        new_state :=
          if b.new_state ≠ v ∧
            b.debounce_ms ≤ sub32 t (if v ≠ b.old_state then t % 2 ^ 32 else b.tick) then v
          else b.new_state
        click_count :=
          if b.new_state ≠ v ∧
            b.debounce_ms ≤ sub32 t (if v ≠ b.old_state then t % 2 ^ 32 else b.tick) ∧
            v = b.active_state.toInt then (b.click_count + 1) % 2 ^ 32
          else b.click_count } := by
  simp only [before_classify, stage_debounce, stage_edge, stage_sample, Exec.start,
    Exec.tick_ms_cb, is_btn_pressed, sub32_mod_left]
  rcases b with ⟨c1, c2, c3, c4, cc, ev, tk, du, os, cs, ns, as, f1, f2, f3⟩
  dsimp only
  by_cases h1 : v = os <;> by_cases h2 : ns = v <;>
    by_cases h3 : v = as.toInt <;>
    by_cases h4 : c3 ≤ sub32 t tk <;>
    by_cases h5 : c3 ≤ sub32 t (t % 2 ^ 32) <;> simp [h1, h2, h3, h4, h5] <;>
    split_ifs <;> first | rfl | omega | simp_all

theorem active_ne_released (s : btn_active_state_t) : s.toInt ≠ released_level s := by
  cases s <;> simp [released_level, btn_active_state_t.toInt]

/-- The classification, the clock standing at `t`, in terms of the button alone. -/
theorem stage_classify_const (t : Nat) (x : Exec) (hs : x.sink = []) :
    (stage_classify (fun _ => t) x).btn =
      (stage_classify (fun _ => t) (Exec.start x.btn)).btn ∧
    (stage_classify (fun _ => t) x).sink =
      (stage_classify (fun _ => t) (Exec.start x.btn)).sink := by
  simp only [stage_classify, Exec.tick_ms_cb, Exec.btn_evt_cb, Exec.reset_click_count, Exec.start, hs]
  split_ifs <;> simp [hs]

/-- A step on a ready button, the clock standing at `t`: the classification of the button
which the earlier stages leave. -/
theorem btn_loop_body_const (v : Int) (t : Nat) (b : Btn) (h : not_ready b = false) :
    (btn_loop_body v (fun _ => t) b).btn =
      (stage_classify (fun _ => t) (Exec.start (before_classify v (fun _ => t) b).btn)).btn ∧
    (btn_loop_body v (fun _ => t) b).sink =
      (stage_classify (fun _ => t) (Exec.start (before_classify v (fun _ => t) b).btn)).sink := by
  simp only [btn_loop_body, h]
  exact stage_classify_const t _ (before_classify_sink _ _ _)


theorem btn_at_ready (s : btn_active_state_t) (g t e m : Nat) (lo ln : Int) (cc tk du : Nat) :
    not_ready (btn_at (btn_setup s g t e m) lo ln cc tk du) = false := rfl

/-- The sample that shows a press: the edge is recorded, nothing is confirmed yet. -/
theorem step_press_edge (s : btn_active_state_t) (g t e m : Nat) (k r d p : Nat) (hp : p < 2^32) :
    (btn_loop_body s.toInt (fun _ => p) (btn_at (btn_setup s g t e m) (released_level s) (released_level s) k r d)).btn
      = btn_at (btn_setup s g t e m) s.toInt (released_level s) k p 0 ∧
    (btn_loop_body s.toInt (fun _ => p) (btn_at (btn_setup s g t e m) (released_level s) (released_level s) k r d)).sink = [] := by
  have hne := active_ne_released s
  have hne' := hne.symm
  have hm : p % 4294967296 = p := Nat.mod_eq_of_lt hp
  have h0 : sub32 p p = 0 := by unfold sub32; omega
  obtain ⟨h1, h2⟩ := btn_loop_body_const s.toInt p _ (btn_at_ready s g t e m _ _ k r d)
  rw [h1, h2, before_classify_btn]
  simp [btn_at, btn_setup, btn_add, hne, hne', hm, h0, stage_classify, Exec.start, Exec.tick_ms_cb, is_btn_pressed]
  constructor <;> split_ifs <;> simp

/-- A held sample before the confirmation: the press is confirmed once 20 ms have passed. -/
theorem step_held_unconfirmed (s : btn_active_state_t) (g t e m : Nat) (k p u : Nat)
    (hu : u < 2^32) (hpu : p ≤ u) (hup : u < p + 500) (hk : k + 1 < 2 ^ 32) :
    (btn_loop_body s.toInt (fun _ => u) (btn_at (btn_setup s g t e m) s.toInt (released_level s) k p 0)).btn
      = (if p + 20 ≤ u then btn_at (btn_setup s g t e m) s.toInt s.toInt (k + 1) p 0
          else btn_at (btn_setup s g t e m) s.toInt (released_level s) k p 0) ∧
    (btn_loop_body s.toInt (fun _ => u) (btn_at (btn_setup s g t e m) s.toInt (released_level s) k p 0)).sink = [] := by
  have hne := active_ne_released s
  have hne' := hne.symm
  have hm : u % 4294967296 = u := Nat.mod_eq_of_lt hu
  have h0 : sub32 u p = u - p := sub32_of_le hpu hu
  have hk' : (k + 1) % 4294967296 = k + 1 := Nat.mod_eq_of_lt hk
  obtain ⟨h1, h2⟩ := btn_loop_body_const s.toInt u _ (btn_at_ready s g t e m _ _ k p 0)
  rw [h1, h2, before_classify_btn]
  simp [btn_at, btn_setup, btn_add, hne, hne', hm, h0, hk', stage_classify, Exec.start, Exec.tick_ms_cb, is_btn_pressed]
  constructor <;> split_ifs <;> first | omega | simp


/-- A held sample after the confirmation, below the press threshold: nothing happens. -/
theorem step_held_confirmed (s : btn_active_state_t) (g t e m : Nat) (k p u : Nat)
    (hu : u < 2^32) (hpu : p ≤ u) (hup : k = 0 ∨ u < p + 500) :
    (btn_loop_body s.toInt (fun _ => u) (btn_at (btn_setup s g t e m) s.toInt s.toInt k p 0)).btn
      = btn_at (btn_setup s g t e m) s.toInt s.toInt k p 0 ∧
    (btn_loop_body s.toInt (fun _ => u) (btn_at (btn_setup s g t e m) s.toInt s.toInt k p 0)).sink = [] := by
  have hm : u % 4294967296 = u := Nat.mod_eq_of_lt hu
  have h0 : sub32 u p = u - p := sub32_of_le hpu hu
  obtain ⟨h1, h2⟩ := btn_loop_body_const s.toInt u _ (btn_at_ready s g t e m _ _ k p 0)
  rw [h1, h2, before_classify_btn]
  simp [btn_at, btn_setup, btn_add, hm, h0, stage_classify, Exec.start, Exec.tick_ms_cb, is_btn_pressed]
  constructor <;> split_ifs <;> first | omega | simp

/-- The sample that shows the release of a short press: the duration is recorded. -/
theorem step_release_edge (s : btn_active_state_t) (g t e m : Nat) (k p r : Nat)
    (hr : r < 2^32) (hpr : p ≤ r) (hrp : r < p + 500) :
    (btn_loop_body (released_level s) (fun _ => r) (btn_at (btn_setup s g t e m) s.toInt s.toInt k p 0)).btn
      = btn_at (btn_setup s g t e m) (released_level s) s.toInt k r (r - p) ∧
    (btn_loop_body (released_level s) (fun _ => r) (btn_at (btn_setup s g t e m) s.toInt s.toInt k p 0)).sink = [] := by
  have hne := active_ne_released s
  have hne' := hne.symm
  have hm : r % 4294967296 = r := Nat.mod_eq_of_lt hr
  have h0 : sub32 r p = r - p := sub32_of_le hpr hr
  have h00 : sub32 r r = 0 := by unfold sub32; omega
  obtain ⟨h1, h2⟩ := btn_loop_body_const (released_level s) r _ (btn_at_ready s g t e m _ _ k p 0)
  rw [h1, h2, before_classify_btn]
  simp [btn_at, btn_setup, btn_add, hne, hne', hm, h0, h00, stage_classify, Exec.start, Exec.tick_ms_cb, is_btn_pressed]
  constructor <;> split_ifs <;> first | omega | simp

/-- A released sample inside the click window: at most the release is confirmed. -/
theorem step_released_wait (s : btn_active_state_t) (g t e m : Nat) (ln : Int) (k r d u : Nat)
    (hu : u < 2^32) (hru : r ≤ u) (hur : k = 0 ∨ u < r + 200) (hd : d < 500)
    (hln : ln = s.toInt ∨ ln = released_level s) :
    (btn_loop_body (released_level s) (fun _ => u) (btn_at (btn_setup s g t e m) (released_level s) ln k r d)).btn
      = btn_at (btn_setup s g t e m) (released_level s)
          (if r + 20 ≤ u then released_level s else ln) k r d ∧
    (btn_loop_body (released_level s) (fun _ => u) (btn_at (btn_setup s g t e m) (released_level s) ln k r d)).sink = [] := by
  have hne := active_ne_released s
  have hne' := hne.symm
  have hm : u % 4294967296 = u := Nat.mod_eq_of_lt hu
  have h0 : sub32 u r = u - r := sub32_of_le hru hu
  obtain ⟨h1, h2⟩ := btn_loop_body_const (released_level s) u _ (btn_at_ready s g t e m _ _ k r d)
  rw [h1, h2, before_classify_btn]
  rcases hln with rfl | rfl <;>
  simp [btn_at, btn_setup, btn_add, hne, hne', hm, h0, stage_classify, Exec.start, Exec.tick_ms_cb, is_btn_pressed] <;>
  constructor <;> split_ifs <;> first | omega | simp

/-- A released sample at or after the end of the click window: MultiClick is emitted. -/
theorem step_released_fire (s : btn_active_state_t) (g t e m : Nat) (ln : Int) (k r d u : Nat)
    (hM : evt_enabled (btn_setup s g t e m) .BTN_EVT_MULTI_CLICK = true)
    (hu : u < 2^32) (hur : r + 200 ≤ u) (hd : d < 500) (hk : k ≠ 0)
    (hln : ln = s.toInt ∨ ln = released_level s) :
    (btn_loop_body (released_level s) (fun _ => u) (btn_at (btn_setup s g t e m) (released_level s) ln k r d)).btn
      = btn_at (btn_setup s g t e m) (released_level s) (released_level s) 0 r d ∧
    (btn_loop_body (released_level s) (fun _ => u) (btn_at (btn_setup s g t e m) (released_level s) ln k r d)).sink =
      [{ evt := .BTN_EVT_MULTI_CLICK,
         btn := btn_at (btn_setup s g t e m) (released_level s) (released_level s) k r d }] := by
  have hne := active_ne_released s
  have hne' := hne.symm
  have hm : u % 4294967296 = u := Nat.mod_eq_of_lt hu
  have h0 : sub32 u r = u - r := sub32_of_le (by omega) hu
  simp [evt_enabled, btn_setup, btn_add, btn_evt_t.toNat] at hM
  obtain ⟨h1, h2⟩ := btn_loop_body_const (released_level s) u _ (btn_at_ready s g t e m _ _ k r d)
  rw [h1, h2, before_classify_btn]
  rcases hln with rfl | rfl <;>
  simp [btn_at, btn_setup, btn_add, hne, hne', hm, h0, stage_classify, Exec.start, Exec.tick_ms_cb,
    Exec.btn_evt_cb, Exec.reset_click_count, is_btn_pressed, evt_enabled, btn_evt_t.toNat, hM, hk] <;>
  constructor <;> split_ifs <;> first | omega | simp

/-- A held sample at or past the press threshold, Press enabled and LongPress disabled. -/
theorem step_held_fire (s : btn_active_state_t) (g t e m : Nat) (ln : Int) (k u : Nat)
    (hP : evt_enabled (btn_setup s g t e m) .BTN_EVT_PRESS = true)
    (hL : evt_enabled (btn_setup s g t e m) .BTN_EVT_LONG_PRESS = false)
    (hu : u < 2^32) (hur : 500 ≤ u)
    (hln : ln = s.toInt ∧ k = 1 ∨ ln = released_level s ∧ k = 0) :
    (btn_loop_body s.toInt (fun _ => u) (btn_at (btn_setup s g t e m) s.toInt ln k 0 0)).btn
      = btn_at (btn_setup s g t e m) s.toInt s.toInt 0 0 0 ∧
    (btn_loop_body s.toInt (fun _ => u) (btn_at (btn_setup s g t e m) s.toInt ln k 0 0)).sink =
      [{ evt := .BTN_EVT_PRESS,
         btn := btn_at (btn_setup s g t e m) s.toInt s.toInt 1 0 0 }] := by
  have hne := active_ne_released s
  have hne' := hne.symm
  have hm : u % 4294967296 = u := Nat.mod_eq_of_lt hu
  have h0 : sub32 u 0 = u := by rw [sub32_of_le (Nat.zero_le _) hu]; rfl
  simp [evt_enabled, btn_setup, btn_add, btn_evt_t.toNat] at hP hL
  obtain ⟨h1, h2⟩ := btn_loop_body_const s.toInt u _ (btn_at_ready s g t e m _ _ k 0 0)
  rw [h1, h2, before_classify_btn]
  rcases hln with ⟨rfl, rfl⟩ | ⟨rfl, rfl⟩ <;>
  simp [btn_at, btn_setup, btn_add, hne, hne', hm, h0, stage_classify, Exec.start, Exec.tick_ms_cb,
    Exec.btn_evt_cb, Exec.reset_click_count, is_btn_pressed, evt_enabled, btn_evt_t.toNat, hP, hL] <;>
  constructor <;> split_ifs <;> first | omega | simp


/-! ## Phases of a click -/

theorem seq_cons_btn (b : Btn) (x : Int × Nat) (l : List (Int × Nat)) :
    seq_btn b (x :: l) = seq_btn (btn_loop_body x.1 (fun _ => x.2) b).btn l := rfl

theorem seq_cons_sink (b : Btn) (x : Int × Nat) (l : List (Int × Nat)) :
    seq_sink b (x :: l) = (btn_loop_body x.1 (fun _ => x.2) b).sink ++
      seq_sink (btn_loop_body x.1 (fun _ => x.2) b).btn l := rfl

/-- While the press is held and confirmed nothing changes. -/
theorem phase_held_confirmed (s : btn_active_state_t) (g t e m : Nat) (k p : Nat)
    (held : List Nat) (h : ∀ u ∈ held, p ≤ u ∧ u < 2 ^ 32 ∧ (k = 0 ∨ u < p + 500)) :
    seq_btn (btn_at (btn_setup s g t e m) s.toInt s.toInt k p 0) (samples_at s.toInt held)
      = btn_at (btn_setup s g t e m) s.toInt s.toInt k p 0 ∧
    seq_sink (btn_at (btn_setup s g t e m) s.toInt s.toInt k p 0) (samples_at s.toInt held)
      = [] := by
  induction held with
  | nil => exact ⟨rfl, rfl⟩
  | cons u rest ih =>
    obtain ⟨h1, h2, h3⟩ := h u (List.mem_cons_self _ _)
    obtain ⟨hb, hs⟩ := step_held_confirmed s g t e m k p u h2 h1 h3
    have ih' := ih (fun v hv => h v (List.mem_cons_of_mem _ hv))
    simp only [samples_at, List.map_cons, seq_cons_btn, seq_cons_sink, hb, hs] at ih' ⊢
    simpa using ih'

/-- The press is confirmed by the first sample at least 20 ms after its edge. -/
theorem phase_held (s : btn_active_state_t) (g t e m : Nat) (k p : Nat)
    (held : List Nat) (h : ∀ u ∈ held, p ≤ u ∧ u < 2 ^ 32 ∧ u < p + 500)
    (hc : ∃ u ∈ held, p + 20 ≤ u) (hk : k + 1 < 2 ^ 32) :
    seq_btn (btn_at (btn_setup s g t e m) s.toInt (released_level s) k p 0)
        (samples_at s.toInt held)
      = btn_at (btn_setup s g t e m) s.toInt s.toInt (k + 1) p 0 ∧
    seq_sink (btn_at (btn_setup s g t e m) s.toInt (released_level s) k p 0)
        (samples_at s.toInt held)
      = [] := by
  induction held with
  | nil => simp at hc
  | cons u rest ih =>
    obtain ⟨h1, h2, h3⟩ := h u (List.mem_cons_self _ _)
    obtain ⟨hb, hs⟩ := step_held_unconfirmed s g t e m k p u h2 h1 h3 hk
    have hrest : ∀ v ∈ rest, p ≤ v ∧ v < 2 ^ 32 ∧ v < p + 500 :=
      fun v hv => h v (List.mem_cons_of_mem _ hv)
    simp only [samples_at, List.map_cons, seq_cons_btn, seq_cons_sink, hb, hs]
    by_cases hu : p + 20 ≤ u
    · have := phase_held_confirmed s g t e m (k + 1) p rest
        (fun v hv => ⟨(hrest v hv).1, (hrest v hv).2.1, Or.inr (hrest v hv).2.2⟩)
      simpa [hu, samples_at] using this
    · have hc' : ∃ v ∈ rest, p + 20 ≤ v := by
        obtain ⟨v, hv, hpv⟩ := hc
        rcases List.mem_cons.1 hv with rfl | hv
        · exact absurd hpv hu
        · exact ⟨v, hv, hpv⟩
      simpa [hu, samples_at] using ih hrest hc'


/-- While the released button waits (the click window open, or no click pending), the
state stays, but for the confirmation of the release. -/
theorem phase_released_settled (s : btn_active_state_t) (g t e m : Nat) (k r d : Nat)
    (idle : List Nat) (hd : d < 500)
    (h : ∀ u ∈ idle, r ≤ u ∧ u < 2 ^ 32 ∧ (k = 0 ∨ u < r + 200)) :
    seq_btn (btn_at (btn_setup s g t e m) (released_level s) (released_level s) k r d)
        (samples_at (released_level s) idle)
      = btn_at (btn_setup s g t e m) (released_level s) (released_level s) k r d ∧
    seq_sink (btn_at (btn_setup s g t e m) (released_level s) (released_level s) k r d)
        (samples_at (released_level s) idle)
      = [] := by
  induction idle with
  | nil => exact ⟨rfl, rfl⟩
  | cons u rest ih =>
    obtain ⟨h1, h2, h3⟩ := h u (List.mem_cons_self _ _)
    obtain ⟨hb, hs⟩ := step_released_wait s g t e m (released_level s) k r d u h2 h1 h3 hd
      (Or.inr rfl)
    have ih' := ih (fun v hv => h v (List.mem_cons_of_mem _ hv))
    simp only [samples_at, List.map_cons, seq_cons_btn, seq_cons_sink, hb, hs] at ih' ⊢
    simpa using ih'

/-- The release is confirmed by the first sample at least 20 ms after its edge. -/
theorem phase_released (s : btn_active_state_t) (g t e m : Nat) (k r d : Nat)
    (idle : List Nat) (hd : d < 500)
    (h : ∀ u ∈ idle, r ≤ u ∧ u < 2 ^ 32 ∧ u < r + 200)
    (hc : ∃ u ∈ idle, r + 20 ≤ u) :
    seq_btn (btn_at (btn_setup s g t e m) (released_level s) s.toInt k r d)
        (samples_at (released_level s) idle)
      = btn_at (btn_setup s g t e m) (released_level s) (released_level s) k r d ∧
    seq_sink (btn_at (btn_setup s g t e m) (released_level s) s.toInt k r d)
        (samples_at (released_level s) idle)
      = [] := by
  induction idle with
  | nil => simp at hc
  | cons u rest ih =>
    obtain ⟨h1, h2, h3⟩ := h u (List.mem_cons_self _ _)
    obtain ⟨hb, hs⟩ := step_released_wait s g t e m s.toInt k r d u h2 h1 (Or.inr h3) hd
      (Or.inl rfl)
    have hrest : ∀ v ∈ rest, r ≤ v ∧ v < 2 ^ 32 ∧ v < r + 200 :=
      fun v hv => h v (List.mem_cons_of_mem _ hv)
    simp only [samples_at, List.map_cons, seq_cons_btn, seq_cons_sink, hb, hs]
    by_cases hu : r + 20 ≤ u
    · have := phase_released_settled s g t e m k r d rest hd
        (fun v hv => ⟨(hrest v hv).1, (hrest v hv).2.1, Or.inr (hrest v hv).2.2⟩)
      simpa [hu, samples_at] using this
    · have hc' : ∃ v ∈ rest, r + 20 ≤ v := by
        obtain ⟨v, hv, hpv⟩ := hc
        rcases List.mem_cons.1 hv with rfl | hv
        · exact absurd hpv hu
        · exact ⟨v, hv, hpv⟩
      simpa [hu, samples_at] using ih hrest hc'

/-- The pending clicks are resolved by the first released sample at least 200 ms after the
release edge: one MultiClick, which sees the counter before its reset. -/
theorem phase_quiet (s : btn_active_state_t) (g t e m : Nat) (ln : Int) (k r d : Nat)
    (hM : evt_enabled (btn_setup s g t e m) .BTN_EVT_MULTI_CLICK = true)
    (idle : List Nat) (hd : d < 500) (hk : k ≠ 0)
    (hln : ln = s.toInt ∨ ln = released_level s)
    (h : ∀ u ∈ idle, r ≤ u ∧ u < 2 ^ 32)
    (hc : ∃ u ∈ idle, r + 200 ≤ u) :
    seq_btn (btn_at (btn_setup s g t e m) (released_level s) ln k r d)
        (samples_at (released_level s) idle)
      = btn_at (btn_setup s g t e m) (released_level s) (released_level s) 0 r d ∧
    seq_sink (btn_at (btn_setup s g t e m) (released_level s) ln k r d)
        (samples_at (released_level s) idle)
      = [{ evt := .BTN_EVT_MULTI_CLICK,
           btn := btn_at (btn_setup s g t e m) (released_level s) (released_level s) k r d }] := by
  induction idle generalizing ln with
  | nil => simp at hc
  | cons u rest ih =>
    obtain ⟨h1, h2⟩ := h u (List.mem_cons_self _ _)
    have hrest : ∀ v ∈ rest, r ≤ v ∧ v < 2 ^ 32 :=
      fun v hv => h v (List.mem_cons_of_mem _ hv)
    by_cases hu : r + 200 ≤ u
    · obtain ⟨hb, hs⟩ := step_released_fire s g t e m ln k r d u hM h2 hu hd hk hln
      have := phase_released_settled s g t e m 0 r d rest hd
        (fun v hv => ⟨(hrest v hv).1, (hrest v hv).2, Or.inl rfl⟩)
      simp only [samples_at, List.map_cons, seq_cons_btn, seq_cons_sink, hb, hs]
      simpa [samples_at] using this
    · obtain ⟨hb, hs⟩ := step_released_wait s g t e m ln k r d u h2 h1
        (Or.inr (by omega)) hd hln
      have hc' : ∃ v ∈ rest, r + 200 ≤ v := by
        obtain ⟨v, hv, hpv⟩ := hc
        rcases List.mem_cons.1 hv with rfl | hv
        · exact absurd hpv hu
        · exact ⟨v, hv, hpv⟩
      have hln' : (if r + 20 ≤ u then released_level s else ln) = s.toInt ∨
          (if r + 20 ≤ u then released_level s else ln) = released_level s := by
        split_ifs
        · exact Or.inr rfl
        · exact hln
      simp only [samples_at, List.map_cons, seq_cons_btn, seq_cons_sink, hb, hs]
      simpa [samples_at] using ih _ hln' hrest hc'

/-! ## The claims about sequences of steps -/

/-- C5.  If a call of `btn_loop` calls the sink with event kind `k`, the bit of `k` is set
in the events mask of the button at that step.  Hence over a sequence of steps on a button
on which `k` is disabled the sink is never called with `k`, whatever the samples and their
times; and a fresh button with the callbacks attached, on which `btn_enable_evt` was never
called, never calls the sink at all. -/
theorem btn_loop_event_masking :
    (∀ (pin : Int) (clk : Nat → Nat) (p : Option Btn) (c : Call),
      c ∈ (btn_loop pin clk p).sink → ∃ b, p = some b ∧ evt_enabled b c.evt = true) ∧
    (∀ (p : Option Btn) (k : btn_evt_t) (l : List (Int × Nat)),
      (∀ b, p = some b → evt_enabled b k = false) →
      ∀ c ∈ (btn_loop_seq p l).sink, c.evt ≠ k) ∧
    (∀ (s : btn_active_state_t) (g t e : Nat) (l : List (Int × Nat)),
      (btn_loop_seq (some (btn_setup s g t e 0)) l).sink = []) := by
  refine ⟨?_, ?_, ?_⟩
  · intro pin clk p c hc
    obtain ⟨b, hb, he, -⟩ := btn_loop_enabled_only pin clk p c hc
    exact ⟨b, hb, he⟩
  · intro p k l h c hc
    cases p with
    | none => simp [btn_loop_seq_none] at hc
    | some b =>
      rw [btn_loop_seq_sink] at hc
      exact seq_sink_disabled b k (h b rfl) l c hc
  · intro s g t e l
    rw [btn_loop_seq_sink, List.eq_nil_iff_forall_not_mem]
    intro c hc
    have h : ∀ k, evt_enabled (btn_setup s g t e 0) k = false := by
      intro k; cases k <;> simp [evt_enabled, btn_setup, btn_add, btn_evt_t.toNat]
    exact seq_sink_disabled _ c.evt (h c.evt) l c hc rfl

/-- An instance of C5: the MultiClick that `clicked_button` emits at time 300 is enabled in
its mask, and with MultiClick disabled the same samples emit no MultiClick. -/
theorem btn_loop_event_masking_witness :
    (∃ b, some clicked_button = some b ∧ evt_enabled b .BTN_EVT_MULTI_CLICK = true) ∧
    ∀ c ∈ (btn_loop_seq (some { clicked_button with events := 6 }) [(1, 300), (1, 600)]).sink,
      c.evt ≠ .BTN_EVT_MULTI_CLICK :=
  ⟨btn_loop_event_masking.1 1 (fun _ => 300) (some clicked_button)
      { evt := .BTN_EVT_MULTI_CLICK, btn := (before_classify 1 (fun _ => 300) clicked_button).btn }
      (by decide),
   btn_loop_event_masking.2.1 (some { clicked_button with events := 6 }) .BTN_EVT_MULTI_CLICK
      [(1, 300), (1, 600)] (by intro b hb; cases hb; decide)⟩

/-! ## A train of short clicks -/

theorem btn_setup_fresh (s : btn_active_state_t) (g t e m : Nat) :
    btn_setup s g t e m =
      btn_at (btn_setup s g t e m) (released_level s) (released_level s) 0 0 0 := rfl

/-- What the order of the sample times of one cycle says about its parts. -/
theorem click_times_sorted (c : Click) (h : c.times.Pairwise (· ≤ ·)) :
    (∀ u ∈ c.held, c.press ≤ u ∧ u ≤ c.release) ∧ c.press ≤ c.release ∧
    ∀ u ∈ c.idle, c.release ≤ u := by
  simp only [Click.times, List.pairwise_cons, List.pairwise_append, List.mem_append,
    List.mem_cons] at h
  obtain ⟨⟨h1, -⟩, ⟨h3, -⟩, h4⟩ := h
  exact ⟨fun u hu => ⟨h1 u hu, h4 u (Or.inr hu) _ (Or.inl rfl)⟩,
    h4 _ (Or.inl rfl) _ (Or.inl rfl), h3⟩

/-- One cycle of a short click that is followed by another: the counter goes up by one and
nothing is emitted. -/
theorem click_counted (s : btn_active_state_t) (g t e m : Nat) (k r d : Nat) (c : Click)
    (hk : k ≤ c.press)
    (hs : c.times.Pairwise (· ≤ ·)) (h32 : ∀ u ∈ c.times, u < 2 ^ 32)
    (hconf : ∃ u ∈ c.held, c.press + 20 ≤ u) (hheld : c.release < c.press + 500)
    (hrel : ∃ u ∈ c.idle, c.release + 20 ≤ u) (hgap : ∀ u ∈ c.idle, u < c.release + 200) :
    seq_btn (btn_at (btn_setup s g t e m) (released_level s) (released_level s) k r d)
        (c.samples s)
      = btn_at (btn_setup s g t e m) (released_level s) (released_level s) (k + 1)
          c.release (c.release - c.press) ∧
    seq_sink (btn_at (btn_setup s g t e m) (released_level s) (released_level s) k r d)
        (c.samples s) = [] := by
  obtain ⟨o1, o2, o3⟩ := click_times_sorted c hs
  have b1 : c.press < 2 ^ 32 := h32 _ (by simp [Click.times])
  have b2 : ∀ u ∈ c.held, u < 2 ^ 32 := fun u hu => h32 _ (by simp [Click.times, hu])
  have b3 : c.release < 2 ^ 32 := h32 _ (by simp [Click.times])
  have b4 : ∀ u ∈ c.idle, u < 2 ^ 32 := fun u hu => h32 _ (by simp [Click.times, hu])
  have hk' : k + 1 < 2 ^ 32 := by
    obtain ⟨u, hu, hpu⟩ := hconf
    have := b2 u hu
    omega
  obtain ⟨e1, e2⟩ := step_press_edge s g t e m k r d c.press b1
  obtain ⟨f1, f2⟩ := phase_held s g t e m k c.press c.held
    (fun u hu => ⟨(o1 u hu).1, b2 u hu, by have := (o1 u hu).2; omega⟩) hconf hk'
  obtain ⟨g1, g2⟩ := step_release_edge s g t e m (k + 1) c.press c.release b3 o2 hheld
  obtain ⟨i1, i2⟩ := phase_released s g t e m (k + 1) c.release (c.release - c.press) c.idle
    (by omega) (fun u hu => ⟨o3 u hu, b4 u hu, hgap u hu⟩) hrel
  simp only [Click.samples, samples_at, List.map_cons, seq_btn_append, seq_sink_append,
    seq_cons_btn, seq_cons_sink, e1, e2] at *
  simp [f1, f2, g1, g2, i1, i2]


/-- The last cycle of a train of short clicks, followed by the quiet period: one MultiClick
is emitted, which sees the counter raised by this cycle. -/
theorem click_resolved (s : btn_active_state_t) (g t e m : Nat) (k r d : Nat) (c : Click)
    (hM : evt_enabled (btn_setup s g t e m) .BTN_EVT_MULTI_CLICK = true)
    (hk : k ≤ c.press)
    (hs : c.times.Pairwise (· ≤ ·)) (h32 : ∀ u ∈ c.times, u < 2 ^ 32)
    (hconf : ∃ u ∈ c.held, c.press + 20 ≤ u) (hheld : c.release < c.press + 500)
    (hquiet : ∃ u ∈ c.idle, c.release + 200 ≤ u) :
    seq_btn (btn_at (btn_setup s g t e m) (released_level s) (released_level s) k r d)
        (c.samples s)
      = btn_at (btn_setup s g t e m) (released_level s) (released_level s) 0
          c.release (c.release - c.press) ∧
    seq_sink (btn_at (btn_setup s g t e m) (released_level s) (released_level s) k r d)
        (c.samples s)
      = [{ evt := .BTN_EVT_MULTI_CLICK,
           btn := btn_at (btn_setup s g t e m) (released_level s) (released_level s) (k + 1)
             c.release (c.release - c.press) }] := by
  obtain ⟨o1, o2, o3⟩ := click_times_sorted c hs
  have b1 : c.press < 2 ^ 32 := h32 _ (by simp [Click.times])
  have b2 : ∀ u ∈ c.held, u < 2 ^ 32 := fun u hu => h32 _ (by simp [Click.times, hu])
  have b3 : c.release < 2 ^ 32 := h32 _ (by simp [Click.times])
  have b4 : ∀ u ∈ c.idle, u < 2 ^ 32 := fun u hu => h32 _ (by simp [Click.times, hu])
  have hk' : k + 1 < 2 ^ 32 := by
    obtain ⟨u, hu, hpu⟩ := hconf
    have := b2 u hu
    omega
  obtain ⟨e1, e2⟩ := step_press_edge s g t e m k r d c.press b1
  obtain ⟨f1, f2⟩ := phase_held s g t e m k c.press c.held
    (fun u hu => ⟨(o1 u hu).1, b2 u hu, by have := (o1 u hu).2; omega⟩) hconf hk'
  obtain ⟨g1, g2⟩ := step_release_edge s g t e m (k + 1) c.press c.release b3 o2 hheld
  obtain ⟨i1, i2⟩ := phase_quiet s g t e m s.toInt (k + 1) c.release (c.release - c.press) hM
    c.idle (by omega) (by omega) (Or.inl rfl) (fun u hu => ⟨o3 u hu, b4 u hu⟩) hquiet
  simp only [Click.samples, samples_at, List.map_cons, seq_btn_append, seq_sink_append,
    seq_cons_btn, seq_cons_sink, e1, e2] at *
  simp [f1, f2, g1, g2, i1, i2]

/-- A train of short clicks from an idle button with `k` clicks pending: the last cycle
resolves them all into one MultiClick. -/
theorem clicks_resolved (s : btn_active_state_t) (g t e m : Nat)
    (hM : evt_enabled (btn_setup s g t e m) .BTN_EVT_MULTI_CLICK = true)
    (l : List Click) (hl : l ≠ []) (k r d : Nat)
    (hk : ∀ c ∈ l.head?, k ≤ c.press)
    (hs : (clicks_times l).Pairwise (· ≤ ·)) (h32 : ∀ u ∈ clicks_times l, u < 2 ^ 32)
    (hconf : ∀ c ∈ l, ∃ u ∈ c.held, c.press + 20 ≤ u)
    (hheld : ∀ c ∈ l, c.release < c.press + 500)
    (hgap : l.Chain' (fun c c' => (∃ u ∈ c.idle, c.release + 20 ≤ u) ∧
      c'.press < c.release + 200))
    (hquiet : ∀ c ∈ l.getLast?, ∃ u ∈ c.idle, c.release + 200 ≤ u) :
    (seq_btn (btn_at (btn_setup s g t e m) (released_level s) (released_level s) k r d)
        (clicks_samples s l)).click_count = 0 ∧
    (seq_sink (btn_at (btn_setup s g t e m) (released_level s) (released_level s) k r d)
        (clicks_samples s l)).map (fun c => (c.evt, c.btn.click_count))
      = [(.BTN_EVT_MULTI_CLICK, k + l.length)] := by
  induction l generalizing k r d with
  | nil => exact absurd rfl hl
  | cons c rest ih =>
    have hk0 : k ≤ c.press := hk c (by simp)
    simp only [clicks_times, List.pairwise_append] at hs
    obtain ⟨hs1, hs2, hs3⟩ := hs
    have h32a : ∀ u ∈ c.times, u < 2 ^ 32 := fun u hu => h32 u (by simp [clicks_times, hu])
    have h32b : ∀ u ∈ clicks_times rest, u < 2 ^ 32 :=
      fun u hu => h32 u (by simp [clicks_times, hu])
    cases rest with
    | nil =>
      obtain ⟨a1, a2⟩ := click_resolved s g t e m k r d c hM hk0 hs1 h32a
        (hconf c (by simp)) (hheld c (by simp)) (hquiet c (by simp))
      simp only [clicks_samples, List.append_nil, a1, a2]
      simp [btn_at]
    | cons c' rest' =>
      rw [List.chain'_cons] at hgap
      obtain ⟨⟨hrel, hnext⟩, hgap'⟩ := hgap
      have hmem : c'.press ∈ clicks_times (c' :: rest') := by simp [clicks_times, Click.times]
      have hidle : ∀ u ∈ c.idle, u < c.release + 200 := by
        intro u hu
        have := hs3 u (by simp [Click.times, hu]) _ hmem
        omega
      obtain ⟨a1, a2⟩ := click_counted s g t e m k r d c hk0 hs1 h32a
        (hconf c (by simp)) (hheld c (by simp)) hrel hidle
      have hk1 : ∀ x ∈ (c' :: rest').head?, k + 1 ≤ x.press := by
        intro x hx
        simp at hx
        subst hx
        obtain ⟨u, hu, hpu⟩ := hconf c (by simp)
        have := hs3 u (by simp [Click.times, hu]) _ hmem
        omega
      have := ih (by simp) (k + 1) c.release (c.release - c.press) hk1 hs2 h32b
        (fun x hx => hconf x (List.mem_cons_of_mem _ hx))
        (fun x hx => hheld x (List.mem_cons_of_mem _ hx)) hgap'
        (by simpa using hquiet)
      rw [clicks_samples, seq_btn_append, seq_sink_append, a1, a2]
      simpa [Nat.add_assoc, Nat.add_comm 1] using this


/-- C1.  Multi-click coalescing.  Start from a freshly created button (`btn_add`) with the
three callbacks attached, the default timings, and MultiClick enabled (whatever else is
enabled).  Let the samples be released samples `lead` followed by those of `N >= 1`
press-release cycles `l`, with a non-decreasing clock below `2^32`, in which every press
is debounce-confirmed (a held sample at least `debounce_ms` after the sample that shows
the press) and held for less than `press_ms`, every release but the last is
debounce-confirmed (a released sample at least `debounce_ms` after the sample that shows
the release) and followed by the next press less than `click_ms` later, and the last
release is followed by a released sample at least `click_ms` later.  Then over the whole
sequence `btn_loop` calls the sink exactly once, with `BTN_EVT_MULTI_CLICK`, the sink sees
`click_count = N`, and `click_count` is 0 at the end. -/
theorem multi_click_coalescing (s : btn_active_state_t) (g t e m : Nat) (lead : List Nat)
    (l : List Click)
    (hM : evt_enabled (btn_setup s g t e m) .BTN_EVT_MULTI_CLICK = true)
    (hl : l ≠ [])
    (hs : (lead ++ clicks_times l).Pairwise (· ≤ ·))
    (h32 : ∀ u ∈ lead ++ clicks_times l, u < 2 ^ 32)
    (hconf : ∀ c ∈ l, ∃ u ∈ c.held, c.press + (btn_add s).debounce_ms ≤ u)
    (hheld : ∀ c ∈ l, c.release < c.press + (btn_add s).press_ms)
    (hgap : l.Chain' (fun c c' => (∃ u ∈ c.idle, c.release + (btn_add s).debounce_ms ≤ u) ∧
      c'.press < c.release + (btn_add s).click_ms))
    (hquiet : ∀ c ∈ l.getLast?, ∃ u ∈ c.idle, c.release + (btn_add s).click_ms ≤ u) :
    (btn_loop_seq (some (btn_setup s g t e m))
        (samples_at (released_level s) lead ++ clicks_samples s l)).sink.map
        (fun c => (c.evt, c.btn.click_count)) = [(.BTN_EVT_MULTI_CLICK, l.length)] ∧
    (btn_loop_seq (some (btn_setup s g t e m))
        (samples_at (released_level s) lead ++ clicks_samples s l)).btn.map Btn.click_count
      = some 0 := by
  obtain ⟨p1, p2⟩ := phase_released_settled s g t e m 0 0 0 lead (by norm_num)
    (fun u hu => ⟨Nat.zero_le _, h32 u (by simp [hu]), Or.inl rfl⟩)
  rw [← btn_setup_fresh] at p1 p2
  have key := clicks_resolved s g t e m hM l hl 0 0 0 (fun c _ => Nat.zero_le _)
    (List.pairwise_append.1 hs).2.1 (fun u hu => h32 u (by simp [hu])) hconf hheld hgap hquiet
  rw [← btn_setup_fresh] at key
  rw [btn_loop_seq_sink, btn_loop_seq_btn, seq_sink_append, seq_btn_append, p1, p2]
  simpa using key.symm

/-- The instance of C1 which the specification gives: active-low, the samples `(low, 0)`,
`(low, 25)`, `(high, 90)`, `(high, 300)` give one MultiClick, with `click_count = 1`. -/
theorem multi_click_coalescing_witness :
    samples_at (released_level .BTN_ACTIVE_LOW) [] ++
      clicks_samples .BTN_ACTIVE_LOW [{ press := 0, held := [25], release := 90, idle := [300] }]
      = [(0, 0), (0, 25), (1, 90), (1, 300)] ∧
    (btn_loop_seq (some (btn_setup .BTN_ACTIVE_LOW 1 2 3 1))
        [(0, 0), (0, 25), (1, 90), (1, 300)]).sink.map
        (fun c => (c.evt, c.btn.click_count)) = [(.BTN_EVT_MULTI_CLICK, 1)] :=
  ⟨by decide,
   (multi_click_coalescing .BTN_ACTIVE_LOW 1 2 3 1 []
      [{ press := 0, held := [25], release := 90, idle := [300] }]
      (by decide) (by simp) (by decide) (by decide) (by decide) (by decide) (by simp)
      (by decide)).1⟩

/-! ## A press held from time 0 -/

/-- While the button is held from time 0 and the press threshold is not reached, the press
is at most confirmed. -/
theorem phase_held_from_zero (s : btn_active_state_t) (g t e m : Nat) (ln : Int) (k : Nat)
    (hln : ln = s.toInt ∧ k = 1 ∨ ln = released_level s ∧ k = 0)
    (pre : List Nat) (h : ∀ u ∈ pre, u < 2 ^ 32 ∧ u < 500) :
    ∃ ln' k', (ln' = s.toInt ∧ k' = 1 ∨ ln' = released_level s ∧ k' = 0) ∧
      seq_btn (btn_at (btn_setup s g t e m) s.toInt ln k 0 0) (samples_at s.toInt pre)
        = btn_at (btn_setup s g t e m) s.toInt ln' k' 0 0 ∧
      seq_sink (btn_at (btn_setup s g t e m) s.toInt ln k 0 0) (samples_at s.toInt pre)
        = [] := by
  induction pre generalizing ln k with
  | nil => exact ⟨ln, k, hln, rfl, rfl⟩
  | cons u rest ih =>
    obtain ⟨h1, h2⟩ := h u (List.mem_cons_self _ _)
    have hrest : ∀ v ∈ rest, v < 2 ^ 32 ∧ v < 500 :=
      fun v hv => h v (List.mem_cons_of_mem _ hv)
    rcases hln with ⟨rfl, rfl⟩ | ⟨rfl, rfl⟩
    · obtain ⟨hb, hs⟩ := step_held_confirmed s g t e m 1 0 u h1 (Nat.zero_le _)
        (Or.inr (by omega))
      obtain ⟨ln', k', hv, i1, i2⟩ := ih s.toInt 1 (Or.inl ⟨rfl, rfl⟩) hrest
      refine ⟨ln', k', hv, ?_, ?_⟩
      · simp only [samples_at, List.map_cons, seq_cons_btn, hb] at i1 ⊢
        exact i1
      · simp only [samples_at, List.map_cons, seq_cons_sink, hb, hs] at i2 ⊢
        simpa using i2
    · obtain ⟨hb, hs⟩ := step_held_unconfirmed s g t e m 0 0 u h1 (Nat.zero_le _)
        (by omega) (by norm_num)
      by_cases hu : 0 + 20 ≤ u
      · obtain ⟨ln', k', hv, i1, i2⟩ := ih s.toInt 1 (Or.inl ⟨rfl, rfl⟩) hrest
        refine ⟨ln', k', hv, ?_, ?_⟩
        · simp only [samples_at, List.map_cons, seq_cons_btn, hb, hu, if_true] at i1 ⊢
          exact i1
        · simp only [samples_at, List.map_cons, seq_cons_sink, hb, hs, hu, if_true] at i2 ⊢
          simpa using i2
      · obtain ⟨ln', k', hv, i1, i2⟩ := ih (released_level s) 0 (Or.inr ⟨rfl, rfl⟩) hrest
        refine ⟨ln', k', hv, ?_, ?_⟩
        · simp only [samples_at, List.map_cons, seq_cons_btn, hb, hu, if_false] at i1 ⊢
          exact i1
        · simp only [samples_at, List.map_cons, seq_cons_sink, hb, hs, hu, if_false] at i2 ⊢
          simpa using i2

/-- C7.  A held press fires once.  Start from a freshly created button with the default
timings, the three callbacks attached, Press enabled and LongPress disabled, and let the
pin read the active level at every sample, the first sample at time 0.  Let `tp` be the
time of the first sample at or after `press_ms = 500` (the samples before it, `pre`, are
earlier than 500; the samples after it, `post`, are arbitrary; all clock values are below
`2^32`).  Then no step before the one at `tp` calls the sink, the step at `tp` calls it
with `BTN_EVT_PRESS` (the sink sees `click_count = 1`) and returns with `click_count = 0`,
no later step calls the sink, and the whole sequence produces exactly one Press.  The
order of the clock values is not even needed. -/
theorem held_press_fires_once (s : btn_active_state_t) (g t e m : Nat)
    (pre post : List Nat) (tp : Nat)
    (hP : evt_enabled (btn_setup s g t e m) .BTN_EVT_PRESS = true)
    (hL : evt_enabled (btn_setup s g t e m) .BTN_EVT_LONG_PRESS = false)
    (h32 : ∀ u ∈ pre ++ tp :: post, u < 2 ^ 32)
    (hpre : ∀ u ∈ pre, u < (btn_add s).press_ms)
    (htp : (btn_add s).press_ms ≤ tp) :
    let o1 := btn_loop_seq (some (btn_setup s g t e m)) (samples_at s.toInt (0 :: pre))
    let o2 := btn_loop s.toInt (fun _ => tp) o1.btn
    let o3 := btn_loop_seq o2.btn (samples_at s.toInt post)
    o1.sink = [] ∧
    o2.sink.map (fun c => (c.evt, c.btn.click_count)) = [(.BTN_EVT_PRESS, 1)] ∧
    o2.btn.map Btn.click_count = some 0 ∧
    o3.sink = [] ∧
    (btn_loop_seq (some (btn_setup s g t e m))
        (samples_at s.toInt (0 :: pre ++ tp :: post))).sink.map Call.evt = [.BTN_EVT_PRESS] := by
  intro o1 o2 o3
  have htp' : 500 ≤ tp := htp
  obtain ⟨e1, e2⟩ := step_press_edge s g t e m 0 0 0 0 (by norm_num)
  rw [← btn_setup_fresh] at e1 e2
  obtain ⟨ln, k, hv, f1, f2⟩ := phase_held_from_zero s g t e m (released_level s) 0
    (Or.inr ⟨rfl, rfl⟩) pre
    (fun u hu => ⟨h32 u (by simp [hu]), hpre u hu⟩)
  obtain ⟨g1, g2⟩ := step_held_fire s g t e m ln k tp hP hL (h32 tp (by simp)) htp' hv
  obtain ⟨i1, i2⟩ := phase_held_confirmed s g t e m 0 0 post
    (fun u hu => ⟨Nat.zero_le _, h32 u (by simp [hu]), Or.inl rfl⟩)
  have a1 : o1.btn = some (btn_at (btn_setup s g t e m) s.toInt ln k 0 0) := by
    simp only [o1, btn_loop_seq_btn, samples_at, List.map_cons, seq_cons_btn, e1]
    rw [← f1]; rfl
  have a1s : o1.sink = [] := by
    simp only [o1, btn_loop_seq_sink, samples_at, List.map_cons, seq_cons_sink, e1, e2]
    simpa [samples_at] using f2
  have a2 : o2.btn = some (btn_at (btn_setup s g t e m) s.toInt s.toInt 0 0 0) := by
    simp only [o2, a1, btn_loop_some_btn, g1]
  have a2s : o2.sink =
      [{ evt := .BTN_EVT_PRESS, btn := btn_at (btn_setup s g t e m) s.toInt s.toInt 1 0 0 }] := by
    simp only [o2, a1, btn_loop_some_sink, g2]
  have a3s : o3.sink = [] := by
    simp only [o3, a2, btn_loop_seq_sink, i2]
  refine ⟨a1s, by simp [a2s, btn_at], by simp [a2, btn_at], a3s, ?_⟩
  have hsplit : samples_at s.toInt (0 :: pre ++ tp :: post) =
      samples_at s.toInt (0 :: pre) ++ (s.toInt, tp) :: samples_at s.toInt post := by
    simp [samples_at]
  rw [btn_loop_seq_sink, hsplit, seq_sink_append, seq_cons_sink]
  have b1 : seq_btn (btn_setup s g t e m) (samples_at s.toInt (0 :: pre)) =
      btn_at (btn_setup s g t e m) s.toInt ln k 0 0 := by
    have := a1
    simp only [o1, btn_loop_seq_btn, Option.some.injEq] at this
    exact this
  have b1s : seq_sink (btn_setup s g t e m) (samples_at s.toInt (0 :: pre)) = [] := by
    rw [← btn_loop_seq_sink]; exact a1s
  rw [b1s, b1]
  simp only [g1, g2, i2]
  simp

/-- The instance of C7 which the specification gives: active-low with Press enabled, held
from time 0 and sampled at 0, 25, 90, 520, 600, 3000: Press is emitted at 520, once. -/
theorem held_press_fires_once_witness :
    (btn_loop 0 (fun _ => 520)
        (btn_loop_seq (some (btn_setup .BTN_ACTIVE_LOW 1 2 3 2))
          (samples_at 0 (0 :: [25, 90]))).btn).sink.map
        (fun c => (c.evt, c.btn.click_count)) = [(.BTN_EVT_PRESS, 1)] ∧
    (btn_loop_seq (some (btn_setup .BTN_ACTIVE_LOW 1 2 3 2))
        (samples_at 0 (0 :: [25, 90] ++ 520 :: [600, 3000]))).sink.map
        Call.evt = [.BTN_EVT_PRESS] :=
  ⟨(held_press_fires_once .BTN_ACTIVE_LOW 1 2 3 2 [25, 90] [600, 3000] 520
      (by decide) (by decide) (by decide) (by decide) (by decide)).2.1,
   (held_press_fires_once .BTN_ACTIVE_LOW 1 2 3 2 [25, 90] [600, 3000] 520
      (by decide) (by decide) (by decide) (by decide) (by decide)).2.2.2.2⟩

/-! ## A glitch shorter than the debounce interval -/

theorem seq_all_append (P : Btn → Int × Nat → Prop) (b : Btn) (l1 l2 : List (Int × Nat)) :
    seq_all P b (l1 ++ l2) ↔ seq_all P b l1 ∧ seq_all P (seq_btn b l1) l2 := by
  induction l1 generalizing b with
  | nil => simp [seq_all, seq_btn]
  | cons x rest ih => simp [seq_all, seq_btn, ih, and_assoc]

theorem seq_all_quiet_sink (b : Btn) (l : List (Int × Nat)) (h : seq_all quiet_step b l)
    (h0 : b.click_count = 0) : seq_sink b l = [] := by
  induction l generalizing b with
  | nil => rfl
  | cons x rest ih =>
    obtain ⟨⟨-, -, hz⟩, h2⟩ := h
    obtain ⟨hs, hc⟩ := hz h0
    simp [seq_sink, hs, ih _ h2 hc]

/-- A step whose debounce stage has nothing to confirm, or not yet the time to confirm it. -/
theorem step_unconfirmed (v : Int) (t : Nat) (b : Btn) (hr : not_ready b = false)
    (h : ¬ (b.new_state ≠ v ∧
      b.debounce_ms ≤ sub32 t (if v ≠ b.old_state then t % 2 ^ 32 else b.tick))) :
    quiet_step b (v, t) ∧
    (btn_loop_body v (fun _ => t) b).btn.old_state = v ∧
    (btn_loop_body v (fun _ => t) b).btn.tick = (if v ≠ b.old_state then t % 2 ^ 32 else b.tick) := by
  have hx := before_classify_btn v t b
  have hn : ¬ (b.new_state ≠ v ∧
      b.debounce_ms ≤ sub32 t (if v ≠ b.old_state then t % 2 ^ 32 else b.tick) ∧
      v = b.active_state.toInt) := fun hh => h ⟨hh.1, hh.2.1⟩
  rw [if_neg h, if_neg hn] at hx
  obtain ⟨h1, h2⟩ := btn_loop_body_const v t b hr
  have hcc : (before_classify v (fun _ => t) b).btn.click_count = b.click_count := by
    rw [hx]
  refine ⟨⟨?_, hcc, ?_⟩, ?_, ?_⟩
  · rw [h1]
    rcases stage_classify_btn (fun _ => t) (Exec.start (before_classify v (fun _ => t) b).btn)
      with hb | hb <;> rw [hb] <;> simp [Exec.start, hx]
  · intro h0
    have hi := stage_classify_idle (fun _ => t)
      (Exec.start (before_classify v (fun _ => t) b).btn) (by simp [Exec.start, hcc, h0])
    rw [h1, h2, hi]
    simp [Exec.start, hcc, h0]
  · rw [h1]
    rcases stage_classify_btn (fun _ => t) (Exec.start (before_classify v (fun _ => t) b).btn)
      with hb | hb <;> rw [hb] <;> simp [Exec.start, hx]
  · rw [h1]
    rcases stage_classify_btn (fun _ => t) (Exec.start (before_classify v (fun _ => t) b).btn)
      with hb | hb <;> rw [hb] <;> simp [Exec.start, hx]


/-- While the pin reads the level that is already confirmed, no step confirms anything. -/
theorem phase_level_confirmed (v : Int) (b : Btn) (hr : not_ready b = false)
    (hnew : b.new_state = v) (l : List Nat) :
    seq_all quiet_step b (samples_at v l) ∧
    not_ready (seq_btn b (samples_at v l)) = false ∧
    (seq_btn b (samples_at v l)).active_state = b.active_state ∧
    (seq_btn b (samples_at v l)).debounce_ms = b.debounce_ms ∧
    (seq_btn b (samples_at v l)).new_state = v ∧
    (b.old_state = v → (seq_btn b (samples_at v l)).old_state = v) := by
  induction l generalizing b with
  | nil => exact ⟨trivial, hr, rfl, rfl, hnew, id⟩
  | cons t rest ih =>
    obtain ⟨hq, ho, -⟩ := step_unconfirmed v t b hr (fun h => h.1 hnew)
    obtain ⟨-, f2, -, -, -, f6, -⟩ := btn_loop_body_frame v (fun _ => t) b
    obtain ⟨i1, i2, i3, i4, i5, i6⟩ := ih (btn_loop_body v (fun _ => t) b).btn
      (by rw [btn_loop_body_not_ready]; exact hr) (by rw [hq.1]; exact hnew)
    simp only [samples_at, List.map_cons, seq_cons_btn] at i1 i2 i3 i4 i5 i6 ⊢
    exact ⟨⟨hq, i1⟩, i2, by rw [i3, f2], by rw [i4, f6], i5, fun _ => i6 ho⟩

/-- While the pin shows a new level for less than the debounce interval since its edge at
time `a0`, no step confirms it. -/
theorem phase_level_pending (v : Int) (a0 : Nat) (b : Btn) (hr : not_ready b = false)
    (hold : b.old_state = v) (htick : b.tick = a0) (l : List Nat)
    (h : ∀ a ∈ l, a0 ≤ a ∧ a < a0 + b.debounce_ms ∧ a < 2 ^ 32) :
    seq_all quiet_step b (samples_at v l) ∧
    not_ready (seq_btn b (samples_at v l)) = false ∧
    (seq_btn b (samples_at v l)).active_state = b.active_state ∧
    (seq_btn b (samples_at v l)).debounce_ms = b.debounce_ms ∧
    (seq_btn b (samples_at v l)).new_state = b.new_state := by
  induction l generalizing b with
  | nil => exact ⟨trivial, hr, rfl, rfl, rfl⟩
  | cons t rest ih =>
    obtain ⟨h1, h2, h3⟩ := h t (List.mem_cons_self _ _)
    have hsub : sub32 t b.tick = t - a0 := by rw [htick]; exact sub32_of_le h1 h3
    obtain ⟨hq, ho, ht⟩ := step_unconfirmed v t b hr (by
      rw [if_neg (by simp [hold]), hsub]
      intro hh
      omega)
    rw [if_neg (by simp [hold])] at ht
    obtain ⟨-, f2, -, -, -, f6, -⟩ := btn_loop_body_frame v (fun _ => t) b
    obtain ⟨i1, i2, i3, i4, i5⟩ := ih (btn_loop_body v (fun _ => t) b).btn
      (by rw [btn_loop_body_not_ready]; exact hr) ho (by rw [ht, htick])
      (fun a ha => by rw [f6]; exact h a (List.mem_cons_of_mem _ ha))
    simp only [samples_at, List.map_cons, seq_cons_btn] at i1 i2 i3 i4 i5 ⊢
    exact ⟨⟨hq, i1⟩, i2, by rw [i3, f2], by rw [i4, f6], by rw [i5, hq.1]⟩

/-- The run of a glitch: a level shown for less than the debounce interval, from a button
whose confirmed level is another one. -/
theorem phase_glitch (v : Int) (b : Btn) (hr : not_ready b = false)
    (hold : b.old_state ≠ v) (run : List Nat)
    (hs : run.Pairwise (· ≤ ·)) (h32 : ∀ a ∈ run, a < 2 ^ 32)
    (h : ∀ a ∈ run, ∀ a' ∈ run, a' < a + b.debounce_ms) :
    seq_all quiet_step b (samples_at v run) ∧
    not_ready (seq_btn b (samples_at v run)) = false ∧
    (seq_btn b (samples_at v run)).active_state = b.active_state ∧
    (seq_btn b (samples_at v run)).debounce_ms = b.debounce_ms ∧
    (seq_btn b (samples_at v run)).new_state = b.new_state := by
  cases run with
  | nil => exact ⟨trivial, hr, rfl, rfl, rfl⟩
  | cons a0 rest =>
    have h0 := h a0 (List.mem_cons_self _ _) a0 (List.mem_cons_self _ _)
    have ha0 := h32 a0 (List.mem_cons_self _ _)
    have hm : a0 % 2 ^ 32 = a0 := Nat.mod_eq_of_lt ha0
    have hsub : sub32 a0 a0 = 0 := by unfold sub32; omega
    obtain ⟨hq, ho, ht⟩ := step_unconfirmed v a0 b hr (by
      rw [if_pos (Ne.symm hold), hm, hsub]
      intro hh
      omega)
    rw [if_pos (Ne.symm hold), hm] at ht
    obtain ⟨-, f2, -, -, -, f6, -⟩ := btn_loop_body_frame v (fun _ => a0) b
    obtain ⟨i1, i2, i3, i4, i5⟩ := phase_level_pending v a0 (btn_loop_body v (fun _ => a0) b).btn
      (by rw [btn_loop_body_not_ready]; exact hr) ho ht rest
      (fun a ha => by
        rw [f6]
        exact ⟨(List.pairwise_cons.1 hs).1 a ha,
          h a0 (List.mem_cons_self _ _) a (List.mem_cons_of_mem _ ha),
          h32 a (List.mem_cons_of_mem _ ha)⟩)
    simp only [samples_at, List.map_cons, seq_cons_btn] at i1 i2 i3 i4 i5 ⊢
    exact ⟨⟨hq, i1⟩, i2, by rw [i3, f2], by rw [i4, f6], by rw [i5, hq.1]⟩

/-- A glitch between two stretches of the confirmed level: no step confirms anything. -/
theorem glitch_quiet (v w : Int) (hvw : v ≠ w) (b : Btn) (hr : not_ready b = false)
    (hold : b.old_state = w) (hnew : b.new_state = w) (pre run post : List Nat)
    (hs : run.Pairwise (· ≤ ·)) (h32 : ∀ a ∈ run, a < 2 ^ 32)
    (h : ∀ a ∈ run, ∀ a' ∈ run, a' < a + b.debounce_ms) :
    seq_all quiet_step b (samples_at w pre ++ samples_at v run ++ samples_at w post) := by
  obtain ⟨p1, p2, p3, p4, p5, p6⟩ := phase_level_confirmed w b hr hnew pre
  obtain ⟨q1, q2, q3, q4, q5⟩ := phase_glitch v (seq_btn b (samples_at w pre)) p2
    (by rw [p6 hold]; exact hvw.symm) run hs h32
    (by rw [p4]; exact h)
  obtain ⟨r1, -⟩ := phase_level_confirmed w
    (seq_btn (seq_btn b (samples_at w pre)) (samples_at v run)) q2 (by rw [q5, p5]) post
  rw [seq_all_append, seq_all_append, seq_btn_append]
  exact ⟨⟨p1, q1⟩, r1⟩


/-- The confirmed level and the counter change in the debounce stage only when the
debounce interval has passed since the last raw edge. -/
theorem debounce_stage_guard (pin : Int) (now : Nat) (b : Btn) (hr : not_ready b = false) :
    (btn_loop_body pin (fun _ => now) b).btn.tick =
      (before_classify pin (fun _ => now) b).btn.tick ∧
    (btn_loop_body pin (fun _ => now) b).btn.new_state =
      (before_classify pin (fun _ => now) b).btn.new_state ∧
    ((before_classify pin (fun _ => now) b).btn.new_state ≠ b.new_state →
      b.debounce_ms ≤ sub32 now (before_classify pin (fun _ => now) b).btn.tick) ∧
    ((before_classify pin (fun _ => now) b).btn.click_count ≠ b.click_count →
      b.debounce_ms ≤ sub32 now (before_classify pin (fun _ => now) b).btn.tick) := by
  obtain ⟨h1, -⟩ := btn_loop_body_const pin now b hr
  have hx := before_classify_btn pin now b
  refine ⟨?_, ?_, ?_, ?_⟩
  · rw [h1]
    rcases stage_classify_btn (fun _ => now)
      (Exec.start (before_classify pin (fun _ => now) b).btn) with hb | hb <;>
      rw [hb] <;> simp [Exec.start]
  · rw [h1]
    rcases stage_classify_btn (fun _ => now)
      (Exec.start (before_classify pin (fun _ => now) b).btn) with hb | hb <;>
      rw [hb] <;> simp [Exec.start]
  · rw [hx]
    dsimp only
    by_cases hc : b.new_state ≠ pin ∧
        b.debounce_ms ≤ sub32 now (if pin ≠ b.old_state then now % 2 ^ 32 else b.tick)
    · intro _; exact hc.2
    · rw [if_neg hc]; intro hh; exact absurd rfl hh
  · rw [hx]
    dsimp only
    by_cases hc : b.new_state ≠ pin ∧
        b.debounce_ms ≤ sub32 now (if pin ≠ b.old_state then now % 2 ^ 32 else b.tick) ∧
        pin = b.active_state.toInt
    · intro _; exact hc.2.1
    · rw [if_neg hc]; intro hh; exact absurd rfl hh

/-- C2, as amended.  First, in every step on a ready button, `new_state` changes, and the
debounce stage changes `click_count`, only if at least `debounce_ms` has elapsed between
`tick` as updated in this step and the clock value.  Second, start from a ready button
whose `old_state` and `new_state` are the released level (`cur_state` is overwritten by
the first sample), and let the pin read the active level only during one run of samples,
non-decreasing in time, any two of which are less than `debounce_ms` apart, and the
released level before and after it.  Then every step of the sequence is quiet: it leaves
`new_state` as it was and its debounce stage leaves `click_count` as it was; and if
`click_count` is 0 at the start, the sink is never called. -/
theorem debounce_suppression :
    (∀ (pin : Int) (now : Nat) (b : Btn), not_ready b = false →
      let x := before_classify pin (fun _ => now) b
      let o := btn_loop pin (fun _ => now) (some b)
      o.btn.map Btn.tick = some x.btn.tick ∧
      (o.btn.map Btn.new_state ≠ some b.new_state →
        b.debounce_ms ≤ sub32 now x.btn.tick) ∧
      (x.btn.click_count ≠ b.click_count → b.debounce_ms ≤ sub32 now x.btn.tick)) ∧
    (∀ (b : Btn) (pre run post : List Nat), not_ready b = false →
      b.old_state = released_level b.active_state →
      b.new_state = released_level b.active_state →
      run.Pairwise (· ≤ ·) → (∀ a ∈ run, a < 2 ^ 32) →
      (∀ a ∈ run, ∀ a' ∈ run, a' < a + b.debounce_ms) →
      seq_all quiet_step b
        (samples_at (released_level b.active_state) pre ++
          samples_at b.active_state.toInt run ++
          samples_at (released_level b.active_state) post) ∧
      (b.click_count = 0 →
        (btn_loop_seq (some b)
          (samples_at (released_level b.active_state) pre ++
            samples_at b.active_state.toInt run ++
            samples_at (released_level b.active_state) post)).sink = [])) := by
  refine ⟨?_, ?_⟩
  · intro pin now b hr x o
    obtain ⟨h1, h2, h3, h4⟩ := debounce_stage_guard pin now b hr
    refine ⟨?_, ?_, h4⟩
    · simp only [o, x, btn_loop_some_btn, Option.map_some', h1]
    · intro hne
      apply h3
      intro heq
      apply hne
      simp only [o, btn_loop_some_btn, Option.map_some', h2, heq]
  · intro b pre run post hr hold hnew hs h32 h
    have key := glitch_quiet b.active_state.toInt (released_level b.active_state)
      (active_ne_released _) b hr hold hnew pre run post hs h32 h
    refine ⟨key, fun h0 => ?_⟩
    rw [btn_loop_seq_sink]
    exact seq_all_quiet_sink b _ key h0

/-- C2 fails as stated: the button `pending_button`, reached from a fresh button by the
samples `(0, 0)`, `(0, 25)`, `(1, 90)`, `(1, 120)`, has its three levels at the released
level, and the samples `(1, 130)`, `(0, 140)`, `(0, 150)`, `(1, 160)`, `(1, 400)`, in which
the pin reads the active level only for 10 ms (less than `debounce_ms = 20`), make the
sink be called: the click that was pending is resolved into a MultiClick. -/
theorem debounce_suppression_counterexample :
    (btn_loop_seq (some (btn_setup .BTN_ACTIVE_LOW 1 2 3 1))
        [(0, 0), (0, 25), (1, 90), (1, 120)]).btn = some pending_button ∧
    not_ready pending_button = false ∧
    pending_button.old_state = released_level pending_button.active_state ∧
    pending_button.cur_state = released_level pending_button.active_state ∧
    pending_button.new_state = released_level pending_button.active_state ∧
    ([130] ++ [140, 150] ++ [160, 400]).Pairwise (· ≤ ·) ∧
    (∀ a ∈ [140, 150], ∀ a' ∈ [140, 150], a' < a + pending_button.debounce_ms) ∧
    (btn_loop_seq (some pending_button)
        (samples_at (released_level pending_button.active_state) [130] ++
          samples_at pending_button.active_state.toInt [140, 150] ++
          samples_at (released_level pending_button.active_state) [160, 400])).sink.map
        (fun c => (c.evt, c.btn.click_count)) = [(.BTN_EVT_MULTI_CLICK, 1)] := by
  decide

/-- An instance of C2 as amended: on a fresh button with every event enabled, a glitch of
15 ms (active samples at 20, 30, 35) between released samples never calls the sink. -/
theorem debounce_suppression_witness :
    (btn_loop_seq (some (btn_setup .BTN_ACTIVE_LOW 1 2 3 7))
      (samples_at 1 [0, 10] ++ samples_at 0 [20, 30, 35] ++ samples_at 1 [50, 300, 1000])).sink
      = [] :=
  (debounce_suppression.2 (btn_setup .BTN_ACTIVE_LOW 1 2 3 7) [0, 10] [20, 30, 35]
    [50, 300, 1000] (by decide) (by decide) (by decide) (by decide) (by decide)
    (by decide)).2 (by decide)

/-! ## Construction and the setters -/

/-- C11.  Construction: for each active state `s`, a successful `btn_add s` returns a
button with `debounce_ms = 20`, `click_ms = 200`, `press_ms = 500`,
`long_press_ms = 2000`, `active_state = s`, the three levels at the logical complement of
`s` (high for active-low, low for active-high, never the active level, so
`is_btn_pressed` is false), and every other field zero or unset: `click_count = 0`,
`events = 0` (no event enabled), `tick = 0`, `duration = 0`, no callback attached. -/
theorem btn_add_fresh (s : btn_active_state_t) :
    btn_add s =
      { click_ms := 200
        press_ms := 500
        debounce_ms := 20
        long_press_ms := 2000
        click_count := 0
        events := 0
        tick := 0
        duration := 0
        old_state := released_level s
        cur_state := released_level s
        new_state := released_level s
        active_state := s
        gpio_read_cb := none
        tick_ms_cb := none
        btn_evt_cb := none } ∧
    released_level .BTN_ACTIVE_LOW = btn_active_state_t.BTN_ACTIVE_HIGH.toInt ∧
    released_level .BTN_ACTIVE_HIGH = btn_active_state_t.BTN_ACTIVE_LOW.toInt ∧
    released_level s ≠ s.toInt ∧
    is_btn_pressed (btn_add s) = false ∧
    (∀ k, evt_enabled (btn_add s) k = false) := by
  refine ⟨rfl, rfl, rfl, ?_, ?_, ?_⟩
  · cases s <;> decide
  · cases s <;> decide
  · intro k; cases s <;> cases k <;> decide

theorem not32_lt (x : Nat) : not32 x < 2 ^ 32 := by
  unfold not32; omega

theorem testBit_not32 (x i : Nat) :
    (not32 x).testBit i = (decide (i < 32) && !x.testBit i) := by
  have h : x % 2 ^ 32 < 2 ^ 32 := Nat.mod_lt _ (by norm_num)
  have := Nat.testBit_two_pow_sub_succ h i
  have e : not32 x = 2 ^ 32 - (x % 2 ^ 32 + 1) := by unfold not32; omega
  rw [e, this, Nat.testBit_mod_two_pow]
  by_cases hi : i < 32 <;> simp [hi]

/-- C12.  The threshold setters change exactly one field: for every non-null button and
every 32-bit value `ms`, with no range check, `btn_set_click_ms`, `btn_set_press_ms` and
`btn_set_long_press_ms` return true and leave the button with `click_ms`, `press_ms`,
`long_press_ms` respectively set to `ms` and every other field as it was; on a null
instance each returns false. -/
theorem threshold_setters (b : Btn) (ms : Nat) (h : ms < 2 ^ 32) :
    (btn_set_click_ms (some b) ms = .returns true (some { b with click_ms := ms }) ∧
      btn_set_press_ms (some b) ms = .returns true (some { b with press_ms := ms }) ∧
      btn_set_long_press_ms (some b) ms =
        .returns true (some { b with long_press_ms := ms })) ∧
    (btn_set_click_ms none ms = .returns false none ∧
      btn_set_press_ms none ms = .returns false none ∧
      btn_set_long_press_ms none ms = .returns false none) := by
  have hm : ms % 4294967296 = ms := Nat.mod_eq_of_lt h
  simp [btn_set_click_ms, btn_set_press_ms, btn_set_long_press_ms, hm]

/-- Instances of C12 at the ends of the range: `ms = 0` and `ms = 2^32 - 1`. -/
theorem threshold_setters_witness :
    (btn_set_click_ms (some (btn_add .BTN_ACTIVE_LOW)) 0 =
        .returns true (some { btn_add .BTN_ACTIVE_LOW with click_ms := 0 }) ∧
      btn_set_press_ms none 0 = .returns false none) ∧
    btn_set_long_press_ms (some (btn_add .BTN_ACTIVE_LOW)) (2 ^ 32 - 1) =
      .returns true (some { btn_add .BTN_ACTIVE_LOW with long_press_ms := 2 ^ 32 - 1 }) :=
  ⟨⟨(threshold_setters (btn_add .BTN_ACTIVE_LOW) 0 (by decide)).1.1,
     (threshold_setters (btn_add .BTN_ACTIVE_LOW) 0 (by decide)).2.2.1⟩,
   (threshold_setters (btn_add .BTN_ACTIVE_LOW) (2 ^ 32 - 1) (by decide)).1.2.2⟩

/-- C13.  The event-mask setters: for every non-null button with mask `e` and every 32-bit
`evt`, `btn_enable_evt` returns true and leaves `events = e OR evt`, `btn_disable_evt`
returns true and leaves `events = e AND NOT evt` (bit `i` of the result is bit `i` of `e`
without bit `i` of `evt`), both leave every other field as it was, and on a null instance
both return false.  Hence `btn_disable_evt evt` after `btn_enable_evt evt` leaves every
bit of `evt` cleared, and enabling `BTN_EVT_ALL` on a fresh button leaves
`events = 7 = 1 | 2 | 4`: exactly the MultiClick, Press and LongPress bits. -/
theorem event_mask_setters (b : Btn) (evt : Nat) (h : evt < 2 ^ 32) :
    (btn_enable_evt (some b) evt = .returns true (some { b with events := b.events ||| evt }) ∧
      btn_disable_evt (some b) evt =
        .returns true (some { b with events := b.events &&& not32 evt }) ∧
      (∀ i, (b.events &&& not32 evt).testBit i =
        (b.events.testBit i && decide (i < 32) && !evt.testBit i))) ∧
    (btn_enable_evt none evt = .returns false none ∧
      btn_disable_evt none evt = .returns false none) ∧
    (∀ b', btn_enable_evt (some b) evt = .returns true (some b') →
      ∃ b'', btn_disable_evt (some b') evt = .returns true (some b'') ∧
        b''.events &&& evt = 0) ∧
    (∀ s, btn_enable_evt (some (btn_add s)) btn_evt_t.BTN_EVT_ALL.toNat =
        .returns true (some { btn_add s with events := 7 }) ∧
      (7 : Nat) = 1 ||| 2 ||| 4) := by
  have hm : evt % 2 ^ 32 = evt := Nat.mod_eq_of_lt h
  have hm' : evt % 4294967296 = evt := Nat.mod_eq_of_lt h
  refine ⟨⟨?_, ?_, ?_⟩, ⟨rfl, rfl⟩, ?_, ?_⟩
  · simp [btn_enable_evt, hm']
  · simp [btn_disable_evt]
  · intro i
    rw [Nat.testBit_and, testBit_not32, Bool.and_assoc]
  · intro b' hb'
    simp only [btn_enable_evt, hm, SetterEnd.returns.injEq, Option.some.injEq, true_and] at hb'
    subst hb'
    refine ⟨_, rfl, ?_⟩
    apply Nat.eq_of_testBit_eq
    intro i
    simp only [Nat.testBit_and, Nat.testBit_or, testBit_not32, Nat.zero_testBit]
    cases evt.testBit i <;> simp
  · intro s
    exact ⟨by cases s <;> decide, by decide⟩

/-- Instances of C13: enabling and disabling Press on the held button. -/
theorem event_mask_setters_witness :
    btn_enable_evt (some (btn_add .BTN_ACTIVE_LOW)) 2 =
      .returns true (some { btn_add .BTN_ACTIVE_LOW with events := 0 ||| 2 }) ∧
    btn_disable_evt (some held_button) 2 =
      .returns true (some { held_button with events := held_button.events &&& not32 2 }) ∧
    held_button.events &&& not32 2 = 4 :=
  ⟨(event_mask_setters (btn_add .BTN_ACTIVE_LOW) 2 (by decide)).1.1,
   (event_mask_setters held_button 2 (by decide)).1.2.1, by decide⟩

/-- C14.  A null callback is rejected: on a non-null button `btn_set_read_gpio_func`,
`btn_set_evt_func` and `btn_set_tick_ms_func` called with a null callback return false
and leave the whole button as it was (a callback attached before is retained); called
with a non-null callback they return true, store it in `gpio_read_cb`, `btn_evt_cb`,
`tick_ms_cb` respectively, and change no other field. -/
theorem callback_setters (b : Btn) :
    (btn_set_read_gpio_func (some b) none = .returns false (some b) ∧
      btn_set_evt_func (some b) none = .returns false (some b) ∧
      btn_set_tick_ms_func (some b) none = .returns false (some b)) ∧
    (∀ f : Nat,
      btn_set_read_gpio_func (some b) (some f) =
        .returns true (some { b with gpio_read_cb := some f }) ∧
      btn_set_evt_func (some b) (some f) =
        .returns true (some { b with btn_evt_cb := some f }) ∧
      btn_set_tick_ms_func (some b) (some f) =
        .returns true (some { b with tick_ms_cb := some f })) :=
  ⟨⟨rfl, rfl, rfl⟩, fun _ => ⟨rfl, rfl, rfl⟩⟩

/-- C15, the code at a null instance.  The three callback setters called with a null
instance and a non-null callback store through the null pointer instead of returning
false: they test `func` only.  Everything else behaves as C15 says: the callback setters
with a null callback, the three threshold setters and the two event-mask setters return
false on a null instance, and `btn_loop` on a null instance does nothing. -/
theorem setters_null_instance (f ms evt : Nat) (pin : Int) (clk : Nat → Nat) :
    (btn_set_read_gpio_func none (some f) = .null_store ∧
      btn_set_evt_func none (some f) = .null_store ∧
      btn_set_tick_ms_func none (some f) = .null_store) ∧
    (btn_set_read_gpio_func none none = .returns false none ∧
      btn_set_evt_func none none = .returns false none ∧
      btn_set_tick_ms_func none none = .returns false none) ∧
    (btn_set_click_ms none ms = .returns false none ∧
      btn_set_press_ms none ms = .returns false none ∧
      btn_set_long_press_ms none ms = .returns false none ∧
      btn_enable_evt none evt = .returns false none ∧
      btn_disable_evt none evt = .returns false none) ∧
    btn_loop pin clk none = { btn := none, pin_reads := 0, clock_reads := 0, sink := [] } :=
  ⟨⟨rfl, rfl, rfl⟩, ⟨rfl, rfl, rfl⟩, ⟨rfl, rfl, rfl, rfl, rfl⟩, rfl⟩

/-! ## The stages of a step -/

/-- C16.  The edge detector: in a step on a ready button with pin reading `pin` and clock
value `now`, `cur_state = pin` afterwards.  If `pin` differs from `old_state`, then
afterwards `old_state = pin`, `tick` is `now` (as a `uint32_t`) and `duration` is 0 when
`pin` is the active level and `(now - previous tick) mod 2^32` otherwise; no debounce
condition is involved.  If `pin` equals `old_state`, then `old_state`, `tick` and
`duration` are unchanged. -/
theorem edge_detector (pin : Int) (now : Nat) (b : Btn) (hr : not_ready b = false) :
    ∃ b', (btn_loop pin (fun _ => now) (some b)).btn = some b' ∧
      b'.cur_state = pin ∧
      (pin ≠ b.old_state →
        b'.old_state = pin ∧ b'.tick = now % 2 ^ 32 ∧
        b'.duration = (if pin = b.active_state.toInt then 0 else sub32 now b.tick)) ∧
      (pin = b.old_state →
        b'.old_state = b.old_state ∧ b'.tick = b.tick ∧ b'.duration = b.duration) := by
  refine ⟨_, btn_loop_some_btn _ _ _, ?_⟩
  obtain ⟨h1, -⟩ := btn_loop_body_const pin now b hr
  have hx := before_classify_btn pin now b
  rw [h1]
  have hfin : ∀ b1 : Btn, (b1 = (before_classify pin (fun _ => now) b).btn ∨
      b1 = { (before_classify pin (fun _ => now) b).btn with click_count := 0 }) →
      b1.cur_state = pin ∧
      (pin ≠ b.old_state →
        b1.old_state = pin ∧ b1.tick = now % 2 ^ 32 ∧
        b1.duration = (if pin = b.active_state.toInt then 0 else sub32 now b.tick)) ∧
      (pin = b.old_state →
        b1.old_state = b.old_state ∧ b1.tick = b.tick ∧ b1.duration = b.duration) := by
    intro b1 hb1
    rcases hb1 with rfl | rfl <;> rw [hx] <;>
      exact ⟨rfl, fun hne => by simp [hne], fun he => by simp [he]⟩
  exact hfin _ (stage_classify_btn (fun _ => now)
    (Exec.start (before_classify pin (fun _ => now) b).btn))

/-- Instances of C16: the release of `held_button` seen at time 600 records the edge and
the duration 600; a further held sample at time 600 changes neither. -/
theorem edge_detector_witness :
    (∃ b', (btn_loop 1 (fun _ => 600) (some held_button)).btn = some b' ∧ b'.cur_state = 1 ∧
      (1 ≠ held_button.old_state →
        b'.old_state = 1 ∧ b'.tick = 600 % 2 ^ 32 ∧
        b'.duration = (if (1 : Int) = held_button.active_state.toInt then 0
          else sub32 600 held_button.tick)) ∧
      ((1 : Int) = held_button.old_state →
        b'.old_state = held_button.old_state ∧ b'.tick = held_button.tick ∧
        b'.duration = held_button.duration)) ∧
    (btn_loop 1 (fun _ => 600) (some held_button)).btn.map Btn.duration = some 600 :=
  ⟨edge_detector 1 600 held_button (by decide), by decide⟩

/-- The button after the debounce stage, the clock standing at `now`. -/
theorem stage_debounce_btn (now : Nat) (x : Exec) :
    (stage_debounce (fun _ => now) x).btn =
      { x.btn with
        new_state :=
          if x.btn.new_state ≠ x.btn.cur_state ∧ x.btn.debounce_ms ≤ sub32 now x.btn.tick then
            x.btn.cur_state
          else x.btn.new_state
        click_count :=
          if x.btn.new_state ≠ x.btn.cur_state ∧ x.btn.debounce_ms ≤ sub32 now x.btn.tick ∧
            x.btn.cur_state = x.btn.active_state.toInt then (x.btn.click_count + 1) % 2 ^ 32
          else x.btn.click_count } := by
  simp only [stage_debounce, Exec.tick_ms_cb, is_btn_pressed, sub32_mod_left]
  rcases x with ⟨⟨c1, c2, c3, c4, cc, ev, tk, du, os, cs, ns, as, f1, f2, f3⟩, pr, cr, sk⟩
  dsimp only
  by_cases h2 : ns = cs <;> by_cases h3 : cs = as.toInt <;>
    by_cases h4 : c3 ≤ sub32 now tk <;> simp [h2, h3, h4] <;>
    split_ifs <;> simp_all

/-- C17.  The debounce confirmation: in a step on a ready button, let `xe` be the state
after the edge detector (it has the sample in `cur_state` and `new_state`, `click_count`
as before the step) and `xd` the state after the debounce stage.  If `new_state` differs
from the sample and `now - tick >= debounce_ms`, then `new_state` becomes the sample, and
`click_count` is incremented by 1 (as a `uint32_t`: plus one unless it wraps at `2^32`)
when the sample is the active level and left as it was otherwise.  If `new_state` equals
the sample or `now - tick < debounce_ms`, the stage leaves both as they were.  So the
stage raises `click_count` by at most 1, and changes it only on a confirmed transition to
the active level; the classification leaves `new_state` as the stage set it. -/
theorem debounce_confirmation (pin : Int) (now : Nat) (b : Btn) (hr : not_ready b = false) :
    let xe := stage_edge (fun _ => now) (stage_sample pin (Exec.start b))
    let xd := stage_debounce (fun _ => now) xe
    (xe.btn.cur_state = pin ∧ xe.btn.new_state = b.new_state ∧
      xe.btn.click_count = b.click_count ∧ xe.btn.debounce_ms = b.debounce_ms) ∧
    (xe.btn.new_state ≠ pin → b.debounce_ms ≤ sub32 now xe.btn.tick →
      xd.btn.new_state = pin ∧
      (pin = b.active_state.toInt →
        xd.btn.click_count = (xe.btn.click_count + 1) % 2 ^ 32 ∧
        (xe.btn.click_count + 1 < 2 ^ 32 → xd.btn.click_count = xe.btn.click_count + 1)) ∧
      (pin ≠ b.active_state.toInt → xd.btn.click_count = xe.btn.click_count)) ∧
    (xe.btn.new_state = pin ∨ sub32 now xe.btn.tick < b.debounce_ms →
      xd.btn.new_state = xe.btn.new_state ∧ xd.btn.click_count = xe.btn.click_count) ∧
    xd.btn.click_count ≤ b.click_count + 1 ∧
    (xd.btn.click_count ≠ b.click_count →
      pin = b.active_state.toInt ∧ b.new_state ≠ pin ∧
      b.debounce_ms ≤ sub32 now xe.btn.tick) ∧
    (btn_loop pin (fun _ => now) (some b)).btn.map Btn.new_state = some xd.btn.new_state := by
  intro xe xd
  have hxe : xe.btn.cur_state = pin ∧ xe.btn.new_state = b.new_state ∧
      xe.btn.click_count = b.click_count ∧ xe.btn.debounce_ms = b.debounce_ms ∧
      xe.btn.active_state = b.active_state := by
    simp only [xe, stage_edge, stage_sample, Exec.start, Exec.tick_ms_cb]
    split_ifs <;> simp
  obtain ⟨e1, e2, e3, e4, e5⟩ := hxe
  have hd := stage_debounce_btn now xe
  rw [e1, e2, e3, e4, e5] at hd
  change xd.btn = _ at hd
  have hn : xd.btn.new_state =
      if b.new_state ≠ pin ∧ b.debounce_ms ≤ sub32 now xe.btn.tick then pin
      else b.new_state := by rw [hd]
  have hcc : xd.btn.click_count =
      if b.new_state ≠ pin ∧ b.debounce_ms ≤ sub32 now xe.btn.tick ∧
        pin = b.active_state.toInt then (b.click_count + 1) % 2 ^ 32
      else b.click_count := by rw [hd]
  refine ⟨⟨e1, e2, e3, e4⟩, ?_, ?_, ?_, ?_, ?_⟩
  · intro h1 h2
    rw [e2] at h1
    refine ⟨by rw [hn, if_pos ⟨h1, h2⟩], fun ha => ?_, fun ha => ?_⟩
    · rw [hcc, if_pos ⟨h1, h2, ha⟩, e3]
      exact ⟨rfl, fun hlt => Nat.mod_eq_of_lt hlt⟩
    · rw [hcc, if_neg (fun h => ha h.2.2), e3]
  · intro h
    rw [e2] at h
    have hno : ¬ (b.new_state ≠ pin ∧ b.debounce_ms ≤ sub32 now xe.btn.tick) := by
      rintro ⟨h1, h2⟩
      rcases h with h | h
      · exact h1 h
      · omega
    rw [hn, hcc, if_neg hno, if_neg (fun h => hno ⟨h.1, h.2.1⟩), e2, e3]
    exact ⟨rfl, rfl⟩
  · rw [hcc]
    split_ifs
    · have := Nat.mod_le (b.click_count + 1) (2 ^ 32)
      omega
    · omega
  · intro hne
    rw [hcc] at hne
    by_cases hc : b.new_state ≠ pin ∧ b.debounce_ms ≤ sub32 now xe.btn.tick ∧
        pin = b.active_state.toInt
    · exact ⟨hc.2.2, hc.1, hc.2.1⟩
    · rw [if_neg hc] at hne
      exact absurd rfl hne
  · obtain ⟨-, h2, -⟩ := debounce_stage_guard pin now b hr
    rw [btn_loop_some_btn, Option.map_some', h2]
    rfl

/-- An instance of C17: the step at time 25 confirms the press of a fresh button seen at
time 0, and raises `click_count` from 0 to 1. -/
theorem debounce_confirmation_witness :
    (stage_debounce (fun _ => 25) (stage_edge (fun _ => 25) (stage_sample 0
      (Exec.start (btn_at (btn_setup .BTN_ACTIVE_LOW 1 2 3 1) 0 1 0 0 0))))).btn.click_count
      = (0 + 1) % 2 ^ 32 :=
  ((debounce_confirmation 0 25 (btn_at (btn_setup .BTN_ACTIVE_LOW 1 2 3 1) 0 1 0 0 0)
    (by decide)).2.1 (by decide) (by decide)).2.1 (by decide) |>.1

/-! ## Translation of the clock -/

theorem sub32_shift (c t k : Nat) :
    sub32 ((c + k) % 2 ^ 32 % 2 ^ 32) ((t + k) % 2 ^ 32) = sub32 (c % 2 ^ 32) t := by
  unfold sub32; omega

theorem mod_shift (c k : Nat) : (c + k) % 2 ^ 32 % 2 ^ 32 = (c % 2 ^ 32 + k) % 2 ^ 32 := by
  omega

theorem sub32_shift_lit (c t k : Nat) :
    sub32 ((c + k) % 4294967296) ((t + k) % 4294967296) = sub32 (c % 4294967296) t := by
  unfold sub32; omega

theorem stage_sample_shift (k : Nat) (pin : Int) (x : Exec) :
    stage_sample pin (x.shift k) = (stage_sample pin x).shift k := rfl

theorem stage_edge_shift (k : Nat) (clk : Nat → Nat) (x : Exec) :
    stage_edge (shift_clock k clk) (x.shift k) = (stage_edge clk x).shift k := by
  simp only [stage_edge, Exec.tick_ms_cb, Exec.shift, shift_tick, shift_clock, is_btn_pressed,
    sub32_shift, mod_shift]
  split_ifs <;> simp [mod_shift, sub32_shift_lit]

theorem stage_debounce_shift (k : Nat) (clk : Nat → Nat) (x : Exec) :
    stage_debounce (shift_clock k clk) (x.shift k) = (stage_debounce clk x).shift k := by
  simp only [stage_debounce, Exec.tick_ms_cb, Exec.shift, shift_tick, shift_clock,
    is_btn_pressed, sub32_shift]
  split_ifs <;> simp [sub32_shift_lit]

theorem stage_classify_shift (k : Nat) (clk : Nat → Nat) (x : Exec) :
    stage_classify (shift_clock k clk) (x.shift k) = (stage_classify clk x).shift k := by
  simp only [stage_classify, Exec.tick_ms_cb, Exec.btn_evt_cb, Exec.reset_click_count,
    Exec.shift, shift_tick, shift_clock, is_btn_pressed, evt_enabled, sub32_shift]
  split_ifs <;> simp [Call.shift, shift_tick, sub32_shift_lit]


theorem btn_loop_body_shift (k : Nat) (pin : Int) (clk : Nat → Nat) (b : Btn) :
    btn_loop_body pin (shift_clock k clk) (shift_tick k b) =
      (btn_loop_body pin clk b).shift k := by
  have hr : not_ready (shift_tick k b) = not_ready b := rfl
  unfold btn_loop_body
  rw [hr]
  split_ifs
  · rfl
  · have h0 : Exec.start (shift_tick k b) = (Exec.start b).shift k := rfl
    rw [before_classify, h0, stage_sample_shift, stage_edge_shift, stage_debounce_shift,
      stage_classify_shift]
    rfl

theorem btn_loop_shift (k : Nat) (pin : Int) (clk : Nat → Nat) (p : Option Btn) :
    btn_loop pin (shift_clock k clk) (p.map (shift_tick k)) = (btn_loop pin clk p).shift k := by
  cases p with
  | none => rfl
  | some b =>
    simp only [Option.map_some', btn_loop, btn_loop_body_shift]
    rfl

/-- C18.  Clock translation.  Moving the 32-bit clock forward by `k` (every clock reading
of the step and the `tick` of the button, modulo `2^32`) changes nothing in a call of
`btn_loop` but the `tick` values: the outcome is the outcome of the unmoved call with
`tick` moved by `k`, in the button and in what the sink sees; the same events are
emitted.  In particular the press of `wrapping_button`, whose raw edge was recorded at
`tick = 2^32 - 10`, is confirmed by the step at the wrapped clock value 15: the elapsed
time is 25. -/
theorem clock_translation :
    (∀ (pin : Int) (clk : Nat → Nat) (k : Nat) (p : Option Btn),
      btn_loop pin (shift_clock k clk) (p.map (shift_tick k)) =
        (btn_loop pin clk p).shift k) ∧
    (∀ (pin : Int) (now k : Nat) (b : Btn),
      (btn_loop pin (fun _ => (now + k) % 2 ^ 32)
          (some { b with tick := (b.tick + k) % 2 ^ 32 })).sink.map Call.evt =
        (btn_loop pin (fun _ => now) (some b)).sink.map Call.evt ∧
      (btn_loop pin (fun _ => (now + k) % 2 ^ 32)
          (some { b with tick := (b.tick + k) % 2 ^ 32 })).btn =
        (btn_loop pin (fun _ => now) (some b)).btn.map
          (fun b' => { b' with tick := (b'.tick + k) % 2 ^ 32 })) ∧
    (sub32 15 wrapping_button.tick = 25 ∧
      (btn_loop 0 (fun _ => 15) (some wrapping_button)).btn =
        some { wrapping_button with new_state := 0, click_count := 1 }) := by
  refine ⟨fun pin clk k p => btn_loop_shift k pin clk p, fun pin now k b => ?_, by decide⟩
  have h := btn_loop_shift k pin (fun _ => now) (some b)
  have e1 : shift_clock k (fun _ => now) = fun _ => (now + k) % 2 ^ 32 := rfl
  have e2 : (some b).map (shift_tick k) = some { b with tick := (b.tick + k) % 2 ^ 32 } := rfl
  rw [e1, e2] at h
  rw [h]
  refine ⟨?_, rfl⟩
  simp [Outcome.shift, Call.shift, Function.comp_def]

/-! ## Histories of public operations -/

/-- A call of `btn_loop` changes at most the six run-time fields. -/
theorem btn_loop_body_only_runtime (pin : Int) (clk : Nat → Nat) (b : Btn) :
    (btn_loop_body pin clk b).btn =
      { b with
        cur_state := (btn_loop_body pin clk b).btn.cur_state
        old_state := (btn_loop_body pin clk b).btn.old_state
        new_state := (btn_loop_body pin clk b).btn.new_state
        tick := (btn_loop_body pin clk b).btn.tick
        duration := (btn_loop_body pin clk b).btn.duration
        click_count := (btn_loop_body pin clk b).btn.click_count } := by
  obtain ⟨h1, h2, h3, h4, h5, h6, h7, h8, h9⟩ := btn_loop_body_frame pin clk b
  generalize (btn_loop_body pin clk b).btn = b' at *
  cases b'
  cases b
  simp_all

/-- An operation on a non-null handle returns, leaves the handle non-null, and a setter
leaves `debounce_ms` and `click_count` as they are and calls no sink. -/
theorem Op.apply_some (op : Op) (b : Btn) :
    ∃ b', (op.apply (some b)).btn = some b' ∧ (op.apply (some b)).faulted = false ∧
      b'.debounce_ms = b.debounce_ms ∧
      ((∃ pin clk, op = .loop pin clk) ∨
        (b'.click_count = b.click_count ∧ (op.apply (some b)).sink = [] ∧
          (op.apply (some b)).confirmed = 0)) := by
  cases op with
  | loop pin clk =>
    exact ⟨_, rfl, rfl, (btn_loop_body_frame pin clk b).2.2.2.2.2.1, Or.inl ⟨pin, clk, rfl⟩⟩
  | set_click_ms ms => exact ⟨_, rfl, rfl, rfl, Or.inr ⟨rfl, rfl, rfl⟩⟩
  | set_press_ms ms => exact ⟨_, rfl, rfl, rfl, Or.inr ⟨rfl, rfl, rfl⟩⟩
  | set_long_press_ms ms => exact ⟨_, rfl, rfl, rfl, Or.inr ⟨rfl, rfl, rfl⟩⟩
  | enable_evt evt => exact ⟨_, rfl, rfl, rfl, Or.inr ⟨rfl, rfl, rfl⟩⟩
  | disable_evt evt => exact ⟨_, rfl, rfl, rfl, Or.inr ⟨rfl, rfl, rfl⟩⟩
  | set_read_gpio_func func =>
    cases func <;> exact ⟨_, rfl, rfl, rfl, Or.inr ⟨rfl, rfl, rfl⟩⟩
  | set_evt_func func =>
    cases func <;> exact ⟨_, rfl, rfl, rfl, Or.inr ⟨rfl, rfl, rfl⟩⟩
  | set_tick_ms_func func =>
    cases func <;> exact ⟨_, rfl, rfl, rfl, Or.inr ⟨rfl, rfl, rfl⟩⟩

/-- A sequence of operations on a non-null handle never stores through a null pointer and
keeps `debounce_ms`. -/
theorem run_ops_some (b : Btn) (ops : List Op) :
    (run_ops (some b) ops).faulted = false ∧
    (run_ops (some b) ops).btn.map Btn.debounce_ms = some b.debounce_ms := by
  induction ops generalizing b with
  | nil => exact ⟨rfl, rfl⟩
  | cons op rest ih =>
    obtain ⟨b', h1, h2, h3, -⟩ := Op.apply_some op b
    obtain ⟨i1, i2⟩ := ih b'
    simp only [run_ops, h1, h2, Bool.false_eq_true, if_false]
    exact ⟨i1, by rw [i2, h3]⟩

/-- The operations of `setup()` in the example, on a fresh button, leave `btn_setup`. -/
theorem run_ops_setup (s : btn_active_state_t) (g t e m : Nat) (hm : m < 2 ^ 32) :
    (run_ops (some (btn_add s))
      [.set_read_gpio_func (some g), .set_tick_ms_func (some t), .set_evt_func (some e),
        .enable_evt m]).btn = some (btn_setup s g t e m) := by
  have h : m % 4294967296 = m := Nat.mod_eq_of_lt hm
  simp [run_ops, Op.apply, SetterEnd.history, btn_set_read_gpio_func, btn_set_tick_ms_func,
    btn_set_evt_func, btn_enable_evt, btn_setup, btn_add, h]

/-- C19.  A step preserves the configuration: a call of `btn_loop` on a non-null button
leaves `click_ms`, `press_ms`, `debounce_ms`, `long_press_ms`, `events`, `active_state`
and the three callbacks as they were; the button it leaves is the old one but for
`cur_state`, `old_state`, `new_state`, `tick`, `duration` and `click_count`.  Together
with the setters: after every sequence of calls of `btn_loop` and the setters on a button
made by `btn_add`, no call has stored through a null pointer and `debounce_ms` is 20. -/
theorem btn_loop_preserves_configuration :
    (∀ (pin : Int) (clk : Nat → Nat) (b : Btn),
      ∃ b', (btn_loop pin clk (some b)).btn = some b' ∧
        b' = { b with
               cur_state := b'.cur_state
               old_state := b'.old_state
               new_state := b'.new_state
               tick := b'.tick
               duration := b'.duration
               click_count := b'.click_count } ∧
        b'.click_ms = b.click_ms ∧ b'.press_ms = b.press_ms ∧
        b'.debounce_ms = b.debounce_ms ∧ b'.long_press_ms = b.long_press_ms ∧
        b'.events = b.events ∧ b'.active_state = b.active_state ∧
        b'.gpio_read_cb = b.gpio_read_cb ∧ b'.tick_ms_cb = b.tick_ms_cb ∧
        b'.btn_evt_cb = b.btn_evt_cb) ∧
    (∀ (s : btn_active_state_t) (ops : List Op),
      (run_ops (some (btn_add s)) ops).faulted = false ∧
      (run_ops (some (btn_add s)) ops).btn.map Btn.debounce_ms = some 20) := by
  refine ⟨fun pin clk b => ?_, fun s ops => run_ops_some (btn_add s) ops⟩
  obtain ⟨h1, h2, h3, h4, h5, h6, h7, h8, h9⟩ := btn_loop_body_frame pin clk b
  exact ⟨_, rfl, btn_loop_body_only_runtime pin clk b, h3, h4, h6, h5, h1, h2, h7, h8, h9⟩

/-- The counter after the debounce stage: raised by one, as a `uint32_t`, exactly in the
steps that confirm a press. -/
theorem before_classify_click_count (pin : Int) (clk : Nat → Nat) (b : Btn)
    (hr : not_ready b = false) :
    (before_classify pin clk b).btn.click_count =
      if confirms_press pin clk (some b) then (b.click_count + 1) % 2 ^ 32
      else b.click_count := by
  have hxe : (stage_edge clk (stage_sample pin (Exec.start b))).btn.click_count =
      b.click_count := by
    simp only [stage_edge, stage_sample, Exec.start, Exec.tick_ms_cb]
    split_ifs <;> simp
  simp only [confirms_press, hr, before_classify, Bool.false_eq_true, if_false]
  generalize stage_edge clk (stage_sample pin (Exec.start b)) = xe at hxe ⊢
  simp only [stage_debounce, Exec.tick_ms_cb, Bool.and_eq_true, decide_eq_true_eq]
  by_cases h1 : xe.btn.new_state ≠ xe.btn.cur_state
  · by_cases h2 : xe.btn.debounce_ms ≤ sub32 (clk xe.clock_reads % 4294967296) xe.btn.tick
    · by_cases h3 : is_btn_pressed xe.btn = true
      · simp [h1, h2, h3, hxe]
      · simp [h1, h2, h3, hxe]
    · simp [h1, h2, hxe]
  · simp [h1, hxe]

/-- The sink sees a counter that is not 0. -/
theorem stage_classify_sees_pending (clk : Nat → Nat) (x : Exec) (h : x.sink = []) (c : Call)
    (hc : c ∈ (stage_classify clk x).sink) : 1 ≤ c.btn.click_count := by
  obtain ⟨-, hb⟩ := stage_classify_enabled clk x h c hc
  rw [hb]
  by_contra h0
  have h0' : x.btn.click_count = 0 := by omega
  rw [stage_classify_idle clk x h0', h] at hc
  simp at hc

/-- One call of `btn_loop` on a non-null button: the calls of the sink and the click
left pending are paid for by the click that was pending and the press confirmed. -/
theorem btn_loop_body_balance (pin : Int) (clk : Nat → Nat) (b : Btn) :
    (∀ c ∈ (btn_loop_body pin clk b).sink, 1 ≤ c.btn.click_count) ∧
    (btn_loop_body pin clk b).sink.length + pending_clicks (some (btn_loop_body pin clk b).btn)
      ≤ pending_clicks (some b) + (if confirms_press pin clk (some b) then 1 else 0) ∧
    ((btn_loop_body pin clk b).sink ≠ [] →
      pending_clicks (some (btn_loop_body pin clk b).btn) = 0) := by
  cases hr : not_ready b with
  | true => simp [btn_loop_body, hr, Exec.start, confirms_press]
  | false =>
    have hs := before_classify_sink pin clk b
    have hcc := before_classify_click_count pin clk b hr
    simp only [btn_loop_body, hr, Bool.false_eq_true, if_false]
    generalize before_classify pin clk b = x at hs hcc
    have hres := stage_classify_emit_resets clk x hs
    refine ⟨fun c hc => stage_classify_sees_pending clk x hs c hc, ?_,
      fun hne => by simp [pending_clicks, hres hne]⟩
    have hlen := stage_classify_sink_length clk x hs
    have hbtn := stage_classify_btn clk x
    have hidle := stage_classify_idle clk x
    have hx : pending_clicks (some x.btn) ≤
        pending_clicks (some b) + (if confirms_press pin clk (some b) then 1 else 0) := by
      simp only [pending_clicks, hcc]
      split_ifs <;> simp_all
    by_cases hne : (stage_classify clk x).sink = []
    · have hp : pending_clicks (some (stage_classify clk x).btn) ≤
          pending_clicks (some x.btn) := by
        rcases hbtn with hb | hb
        · rw [hb]
        · rw [hb]; simp [pending_clicks]
      rw [hne]
      simp only [List.length_nil, Nat.zero_add]
      omega
    · have h0 := hres hne
      have hx0 : x.btn.click_count ≠ 0 := by
        intro h0'
        exact hne (by rw [hidle h0', hs])
      have hp1 : pending_clicks (some x.btn) = 1 := by simp [pending_clicks, hx0]
      have hp0 : pending_clicks (some (stage_classify clk x).btn) = 0 := by
        simp [pending_clicks, h0]
      omega

/-- One operation: the same balance. -/
theorem Op.apply_balance (p : Option Btn) (op : Op) :
    (∀ c ∈ (op.apply p).sink, 1 ≤ c.btn.click_count) ∧
    (op.apply p).sink.length + pending_clicks (op.apply p).btn
      ≤ pending_clicks p + (op.apply p).confirmed ∧
    ((op.apply p).sink ≠ [] → pending_clicks (op.apply p).btn = 0) := by
  cases p with
  | none =>
    cases op with
    | loop pin clk => simp [Op.apply, btn_loop, confirms_press, pending_clicks]
    | set_click_ms ms => simp [Op.apply, btn_set_click_ms, SetterEnd.history]
    | set_press_ms ms => simp [Op.apply, btn_set_press_ms, SetterEnd.history]
    | set_long_press_ms ms => simp [Op.apply, btn_set_long_press_ms, SetterEnd.history]
    | enable_evt evt => simp [Op.apply, btn_enable_evt, SetterEnd.history]
    | disable_evt evt => simp [Op.apply, btn_disable_evt, SetterEnd.history]
    | set_read_gpio_func func =>
      cases func <;> simp [Op.apply, btn_set_read_gpio_func, SetterEnd.history]
    | set_evt_func func =>
      cases func <;> simp [Op.apply, btn_set_evt_func, SetterEnd.history]
    | set_tick_ms_func func =>
      cases func <;> simp [Op.apply, btn_set_tick_ms_func, SetterEnd.history]
  | some b =>
    obtain ⟨b', h1, -, -, h4⟩ := Op.apply_some op b
    rcases h4 with ⟨pin, clk, rfl⟩ | ⟨h5, h6, h7⟩
    · exact btn_loop_body_balance pin clk b
    · rw [h1, h6, h7]
      simp [pending_clicks, h5]

/-- A sequence of operations: the calls of the sink and the click left pending are paid
for by the click pending at the start and the presses confirmed. -/
theorem run_ops_balance (p : Option Btn) (ops : List Op) :
    (∀ c ∈ (run_ops p ops).sink, 1 ≤ c.btn.click_count) ∧
    (run_ops p ops).sink.length + pending_clicks (run_ops p ops).btn
      ≤ pending_clicks p + (run_ops p ops).confirmed := by
  induction ops generalizing p with
  | nil => simp [run_ops]
  | cons op rest ih =>
    obtain ⟨a1, a2, -⟩ := Op.apply_balance p op
    obtain ⟨i1, i2⟩ := ih (op.apply p).btn
    simp only [run_ops]
    split_ifs
    · exact ⟨a1, a2⟩
    · refine ⟨?_, ?_⟩
      · intro c hc
        rcases List.mem_append.1 hc with hc | hc
        · exact a1 c hc
        · exact i1 c hc
      · simp only [List.length_append]
        omega

/-- C20.  Events never outnumber confirmed presses.  For every sequence of calls of
`btn_loop` (any pin readings, any clock oracles) and of the setters on a button made by
`btn_add`: every call of the sink sees `click_count >= 1`, and the number of calls of the
sink is at most the number of steps whose debounce stage confirmed a transition to the
active level.  And after any operation that called the sink, on any button, every
continuation calls the sink at most as often as it confirms a press: before the next
event there is a newly confirmed press. -/
theorem events_bounded_by_confirmed_presses :
    (∀ (s : btn_active_state_t) (ops : List Op),
      (run_ops (some (btn_add s)) ops).faulted = false ∧
      (∀ c ∈ (run_ops (some (btn_add s)) ops).sink, 1 ≤ c.btn.click_count) ∧
      (run_ops (some (btn_add s)) ops).sink.length ≤
        (run_ops (some (btn_add s)) ops).confirmed) ∧
    (∀ (p : Option Btn) (op : Op) (ops : List Op), (op.apply p).sink ≠ [] →
      (run_ops (op.apply p).btn ops).sink.length ≤ (run_ops (op.apply p).btn ops).confirmed) := by
  refine ⟨fun s ops => ?_, fun p op ops hne => ?_⟩
  · obtain ⟨h1, h2⟩ := run_ops_balance (some (btn_add s)) ops
    refine ⟨(run_ops_some (btn_add s) ops).1, h1, ?_⟩
    have h0 : pending_clicks (some (btn_add s)) = 0 := rfl
    omega
  · obtain ⟨-, -, a3⟩ := Op.apply_balance p op
    obtain ⟨-, h2⟩ := run_ops_balance (op.apply p).btn ops
    have := a3 hne
    omega

/-- Instances of C20: a fresh button set up like in the example and clicked once emits
one event for one confirmed press; and after the MultiClick of `clicked_button` at time
300, a glitch and a further click give one event more for one confirmed press more. -/
theorem events_bounded_by_confirmed_presses_witness :
    ((run_ops (some (btn_add .BTN_ACTIVE_LOW)) example_ops).sink.length ≤
        (run_ops (some (btn_add .BTN_ACTIVE_LOW)) example_ops).confirmed ∧
      (run_ops (some (btn_add .BTN_ACTIVE_LOW)) example_ops).sink.length = 1) ∧
    (run_ops (Op.apply (some clicked_button) (.loop 1 (fun _ => 300))).btn
        [.loop 0 (fun _ => 400), .loop 0 (fun _ => 430), .loop 1 (fun _ => 500),
          .loop 1 (fun _ => 800)]).sink.length ≤
      (run_ops (Op.apply (some clicked_button) (.loop 1 (fun _ => 300))).btn
        [.loop 0 (fun _ => 400), .loop 0 (fun _ => 430), .loop 1 (fun _ => 500),
          .loop 1 (fun _ => 800)]).confirmed :=
  ⟨⟨(events_bounded_by_confirmed_presses.1 .BTN_ACTIVE_LOW example_ops).2.2, by decide⟩,
   events_bounded_by_confirmed_presses.2 (some clicked_button) (.loop 1 (fun _ => 300))
     [.loop 0 (fun _ => 400), .loop 0 (fun _ => 430), .loop 1 (fun _ => 500),
       .loop 1 (fun _ => 800)] (by decide)⟩

end Buttons
